import Mathlib

/-!
Shallow embedding of the IGNIS-OS kernel core (C sources under `src/`) and
verification of the frozen specification claims.

Each namespace below embeds one C module.  Machine integers are modelled as
`Nat`, with an explicit `% 2^w` at the points where the C code can overflow
or truncate.  Memory that a module manipulates is modelled explicitly
(functions from addresses to values); fallible operations return the kernel
error enumeration `KErr` translated from `src/error_handling/errno.h`.
-/

/-- Kernel error kinds, from `src/error_handling/errno.h`. -/
inductive KErr where
  | E_OK
  | E_NOMEM
  | E_INVALID
  | E_NOTFOUND
  | E_EXISTS
  | E_NOTDIR
  | E_ISDIR
  | E_TIMEOUT
  | E_PERM
  | E_HARDWARE
deriving DecidableEq, Repr

namespace Pmm

/-! Physical memory manager, from `src/mm/pmm.c` and `src/mm/memory_layout.h`. -/

def PAGE_SIZE : Nat := 4096

def PHYS_LOW_MEM_START : Nat := 0x00000000

def PHYS_HEAP_END : Nat := 0x00300000

def PHYS_BITMAP_START : Nat := 0x00300000

def PHYS_FREE_START : Nat := 0x00400000

def PHYS_MEMORY_END : Nat := 0x08000000

/-- `total_pages` as computed by `pmm_init`. -/
def total_pages : Nat := (PHYS_MEMORY_END - PHYS_FREE_START) / PAGE_SIZE

/-- `IS_PAGE_ALIGNED` from `memory_layout.h`. -/
def IS_PAGE_ALIGNED (addr : Nat) : Bool := addr % PAGE_SIZE == 0

/-- PMM state: the page bitmap (`true` = used) together with the
`used_pages` counter. -/
structure PmmState where
  bitmap : Nat → Bool
  used : Nat

/-- `addr_to_page`: `(addr - PHYS_FREE_START) / PAGE_SIZE`, computed in
`uint64_t` arithmetic and truncated to the `uint32_t` return type. -/
def addr_to_page (addr : Nat) : Nat :=
  (((addr + 2 ^ 64 - PHYS_FREE_START) % 2 ^ 64) / PAGE_SIZE) % 2 ^ 32

/-- `page_to_addr`: `PHYS_FREE_START + page * PAGE_SIZE`. -/
def page_to_addr (page : Nat) : Nat := PHYS_FREE_START + page * PAGE_SIZE

/-- First-fit scan of the bitmap (the `for` loop of `pmm_alloc_page`),
starting at index `i` with `fuel` indices left to inspect. -/
def findFreeFrom (s : PmmState) : Nat → Nat → Option Nat
  | _, 0 => none
  | i, fuel + 1 => if s.bitmap i then findFreeFrom s (i + 1) fuel else some i

/-- `pmm_alloc_page`: first-fit scan; on success sets the bit, increments
`used_pages` and returns the page's physical address; returns 0 (`none`)
when out of memory. -/
def pmm_alloc_page (s : PmmState) : Option Nat × PmmState :=
  match findFreeFrom s 0 total_pages with
  | some i =>
      (some (page_to_addr i),
        { bitmap := fun j => if j = i then true else s.bitmap j, used := s.used + 1 })
  | none => (none, s)

/-- `pmm_free_page`, translated line by line from `src/mm/pmm.c:97-109`:
note the range test is `phys_addr < PHYS_LOW_MEM_START || phys_addr >=
PHYS_HEAP_END`. -/
def pmm_free_page (s : PmmState) (phys_addr : Nat) : PmmState :=
  if phys_addr < PHYS_LOW_MEM_START ∨ phys_addr ≥ PHYS_HEAP_END then s
  else if ¬ (IS_PAGE_ALIGNED phys_addr = true) then s
  else
    let page := addr_to_page phys_addr
    if page ≥ total_pages then s
    else if s.bitmap page then
      { bitmap := fun j => if j = page then false else s.bitmap j, used := s.used - 1 }
    else s

/-- The bitmap state right after `pmm_init` on the default memory map: the
`mark_region_used` calls all clamp to an empty range (their regions lie
below `PHYS_FREE_START`), so every managed page is free. -/
def pmmInit : PmmState := { bitmap := fun _ => false, used := 0 }

end Pmm

/-- C1: every address returned by `pmm_alloc_page` is `≥ PHYS_FREE_START`,
which is `≥ PHYS_HEAP_END`, so the range check of `pmm_free_page` rejects
it and the state is returned unchanged: the bitmap bit stays set,
`used_pages` is not decremented, and the address can never be returned
again.  This contradicts the claim (and spec §8.1); the bound in
`pmm_free_page` should have been `PHYS_MEMORY_END` over the managed range. -/
theorem C1_pmm_free_page_rejects_allocated (s s1 : Pmm.PmmState) (a : Nat)
    (h : Pmm.pmm_alloc_page s = (some a, s1)) :
    Pmm.PHYS_FREE_START ≤ a ∧ Pmm.pmm_free_page s1 a = s1 := by
  have hge : Pmm.PHYS_FREE_START ≤ a := by
    unfold Pmm.pmm_alloc_page at h
    cases hf : Pmm.findFreeFrom s 0 Pmm.total_pages with
    | none => rw [hf] at h; exact absurd (congrArg Prod.fst h) (by simp)
    | some i =>
        rw [hf] at h
        have : Pmm.page_to_addr i = a := by
          have := congrArg Prod.fst h
          simpa using this
        rw [← this]
        exact Nat.le_add_right _ _
  refine ⟨hge, ?_⟩
  unfold Pmm.pmm_free_page
  have hreject : a < Pmm.PHYS_LOW_MEM_START ∨ a ≥ Pmm.PHYS_HEAP_END := by
    right
    calc Pmm.PHYS_HEAP_END ≤ Pmm.PHYS_FREE_START := by norm_num [Pmm.PHYS_HEAP_END, Pmm.PHYS_FREE_START]
    _ ≤ a := hge
  simp [hreject]

/-- Witness for C1 at a concrete input: from the post-`pmm_init` state the
first allocation returns `0x400000`; freeing it leaves the state unchanged. -/
theorem C1_pmm_free_page_rejects_allocated_witness :
    Pmm.PHYS_FREE_START ≤ 0x400000 ∧
      Pmm.pmm_free_page (Pmm.pmm_alloc_page Pmm.pmmInit).2 0x400000 =
        (Pmm.pmm_alloc_page Pmm.pmmInit).2 :=
  C1_pmm_free_page_rejects_allocated Pmm.pmmInit (Pmm.pmm_alloc_page Pmm.pmmInit).2
    0x400000 rfl

namespace KmallocModel

/-! kmalloc dispatch layer, from `src/mm/allocators/kmalloc.c`.

The heap memory that `is_buddy_allocation` inspects is modelled by a
function `magicBelow` giving, for each pointer value, the 32-bit word found
at `ptr - sizeof(buddy_alloc_header_t)` (the header's `magic` field), and a
function `sizeBelow` giving the header's `size` field at the same place.
The calls out to `slab_kmalloc` / `buddy_alloc_order` are abstracted by an
allocation oracle `allocFn`; the events a call performs (allocate, copy,
free) are recorded in a trace so that "performs no allocation, copy or
free" is expressible. -/

def BUDDY_MAGIC : Nat := 0xB0DD1E5

structure Heap where
  magicBelow : Nat → Nat
  sizeBelow : Nat → Nat

/-- `is_buddy_allocation`: null check, then compare the word just below the
pointer with `BUDDY_MAGIC`. -/
def is_buddy_allocation (h : Heap) (ptr : Nat) : Bool :=
  if ptr = 0 then false else h.magicBelow ptr == BUDDY_MAGIC

/-- `get_buddy_size`: read the header's `size` field. -/
def get_buddy_size (h : Heap) (ptr : Nat) : Nat := h.sizeBelow ptr

/-- One observable heap action performed by `krealloc`. -/
inductive AllocEvent where
  | alloc (size : Nat)
  | copy (src dst n : Nat)
  | free (ptr : Nat)
deriving DecidableEq, Repr

/-- `kmalloc` dispatch, from `src/mm/allocators/kmalloc.c:50-79`: size 0
returns `NULL`; otherwise the request is forwarded (≤ 4096 to the slab
layer, larger to buddy with a tagged header), modelled by the oracle. -/
def kmalloc (allocFn : Nat → Option Nat) (size : Nat) : Option Nat :=
  if size = 0 then none
  else allocFn size

/-- `krealloc`, from `src/mm/allocators/kmalloc.c:118-159`, returning the
result pointer and the trace of heap actions performed. -/
def krealloc (h : Heap) (allocFn : Nat → Option Nat) (ptr new_size : Nat) :
    Option Nat × List AllocEvent :=
  if ptr = 0 then
    (kmalloc allocFn new_size, [AllocEvent.alloc new_size])
  else if new_size = 0 then
    (none, [AllocEvent.free ptr])
  else
    let old_size := if is_buddy_allocation h ptr then get_buddy_size h ptr else new_size
    if new_size ≤ old_size then (some ptr, [])
    else
      match kmalloc allocFn new_size with
      | none => (none, [AllocEvent.alloc new_size])
      | some new_ptr =>
          let copy_size := if old_size < new_size then old_size else new_size
          (some new_ptr,
            [AllocEvent.alloc new_size, AllocEvent.copy ptr new_ptr copy_size,
             AllocEvent.free ptr])

end KmallocModel

/-- C8: for a non-null pointer whose preceding header word is not the buddy
magic (every slab-routed `kmalloc` result, unless the neighbouring slab
bytes happen to contain the magic) and any `new_size ≥ 1`, `krealloc`
takes `old_size = new_size` ("conservative estimate"), hence
`new_size ≤ old_size` holds and the same pointer is returned with no
allocation, copy or free performed - even when `new_size` exceeds the slab
object's bucket size. -/
theorem C8_krealloc_slab_returns_same_pointer (h : KmallocModel.Heap)
    (allocFn : Nat → Option Nat) (ptr new_size : Nat) (hp : ptr ≠ 0)
    (hm : h.magicBelow ptr ≠ KmallocModel.BUDDY_MAGIC) (hs : 1 ≤ new_size) :
    KmallocModel.krealloc h allocFn ptr new_size = (some ptr, []) := by
  unfold KmallocModel.krealloc
  have hb : KmallocModel.is_buddy_allocation h ptr = false := by
    unfold KmallocModel.is_buddy_allocation
    simp [hp, hm]
  rw [if_neg hp, if_neg (by omega)]
  simp [hb]

/-- Witness for C8: a heap whose header word below pointer 4096 is zero,
reallocated from a slab-sized object to a megabyte. -/
theorem C8_krealloc_slab_returns_same_pointer_witness :
    KmallocModel.krealloc ⟨fun _ => 0, fun _ => 0⟩ (fun n => some (n + 8)) 4096 1048576 =
      (some 4096, []) :=
  C8_krealloc_slab_returns_same_pointer ⟨fun _ => 0, fun _ => 0⟩ (fun n => some (n + 8))
    4096 1048576 (by decide) (by decide) (by decide)

namespace Ramfs

/-! RAM filesystem write path, from `src/fs/filesystems/ramfs.c`.

A regular file's ramfs-private record is modelled by the optional owned
data buffer (`none` = `NULL`) plus the vfs node's `size` field.  `kmalloc`
is the dispatch function from `KmallocModel` with an oracle for the
underlying allocators; byte buffers are lists of bytes. -/

/-- The part of a vfs node + ramfs record that `ramfs_write` touches. -/
structure RamFile where
  isRegular : Bool
  size : Nat
  data : Option (List Nat)
deriving DecidableEq, Repr

/-- Result of `ramfs_write`: error code, updated node state,
`*bytes_written` (`none` when the C code returns without storing to it),
and whether the old buffer was passed to `kfree`. -/
structure WriteResult where
  err : KErr
  node : RamFile
  bytes_written : Option Nat
  freedOld : Bool
deriving Repr

/-- `ramfs_write`, from `src/fs/filesystems/ramfs.c:133-161`.  `allocOk`
abstracts whether the slab/buddy layers can satisfy a (non-zero) request;
`kmalloc 0` itself returns `NULL` per `kmalloc.c:51`. -/
def ramfs_write (allocOk : Nat → Bool) (node : RamFile) (buffer : List Nat)
    (size : Nat) : WriteResult :=
  if ¬ (node.isRegular = true) then
    { err := KErr.E_ISDIR, node := node, bytes_written := none, freedOld := false }
  else
    -- Free old data if exists
    let freed := node.data.isSome
    let node1 : RamFile := { node with data := none }
    -- Allocate new data: kmalloc(size)
    match KmallocModel.kmalloc (fun n => if allocOk n then some n else none) size with
    | none =>
        { err := KErr.E_NOMEM, node := { node1 with size := 0 },
          bytes_written := some 0, freedOld := freed }
    | some _ =>
        let newData := (List.range size).map fun i => buffer.getD i 0
        { err := KErr.E_OK, node := { node1 with size := size, data := some newData },
          bytes_written := some size, freedOld := freed }

end Ramfs

/-- C9: `kmalloc 0` returns `NULL`, and `ramfs_write` frees the previous
buffer before allocating, so a size-0 write on a regular file always
returns `E_NOMEM` with the node left at size 0 with no data buffer and
`*bytes_written = 0`; the old contents (when any existed) have been freed,
so the failure is not atomic. -/
theorem C9_ramfs_write_zero_destroys (allocOk : Nat → Bool) (node : Ramfs.RamFile)
    (buffer : List Nat) (hreg : node.isRegular = true) :
    (∀ f : Nat → Option Nat, KmallocModel.kmalloc f 0 = none) ∧
      Ramfs.ramfs_write allocOk node buffer 0 =
        { err := KErr.E_NOMEM, node := { isRegular := true, size := 0, data := none },
          bytes_written := some 0, freedOld := node.data.isSome } := by
  refine ⟨fun f => rfl, ?_⟩
  cases node with
  | mk r s d =>
      simp only [Ramfs.RamFile.isRegular] at hreg
      subst hreg
      unfold Ramfs.ramfs_write
      simp [KmallocModel.kmalloc]

/-- Witness for C9: a regular file that currently holds the three bytes
"abc" loses them on a zero-size write. -/
theorem C9_ramfs_write_zero_destroys_witness :
    (∀ f : Nat → Option Nat, KmallocModel.kmalloc f 0 = none) ∧
      Ramfs.ramfs_write (fun _ => true) ⟨true, 3, some [97, 98, 99]⟩ [] 0 =
        { err := KErr.E_NOMEM, node := { isRegular := true, size := 0, data := none },
          bytes_written := some 0, freedOld := true } :=
  C9_ramfs_write_zero_destroys (fun _ => true) ⟨true, 3, some [97, 98, 99]⟩ [] rfl

namespace Nvme

/-! NVMe completion polling, from `src/drivers/disks/nvme.c:232-266`.

The completion-queue memory is written asynchronously by the device, so the
read of `qp->cq[qp->cq_head].status` at each poll iteration is modelled by
a stream `read : Nat → CQEntry`: `read k` is the entry observed at the
`k`-th iteration of the `while (timeout--)` loop.  (`cq_head` does not move
until a match, so every iteration of one call inspects the same slot.)  The
doorbell MMIO write is recorded as the `doorbell` field of the result. -/

/-- The two fields of a 16-byte completion entry that the polling loop
reads (`status` is the 16-bit status word, `cid` the command id). -/
structure CQEntry where
  status : Nat
  cid : Nat
deriving DecidableEq, Repr

/-- The completion-queue half of an `nvme_queue_pair_t`. -/
structure QueuePair where
  cq_size : Nat
  cq_head : Nat
  cq_phase : Nat
deriving DecidableEq, Repr

/-- Result of `nvme_wait_completion`: error code, updated queue pair, and
the value written to the CQ doorbell register (`none` when timed out). -/
structure WaitResult where
  err : KErr
  qp : QueuePair
  doorbell : Option Nat
deriving DecidableEq, Repr

/-- C `!` on a `uint8_t` holding 0 or 1 (used for `!qp->cq_phase`). -/
def cNot (x : Nat) : Nat := if x = 0 then 1 else 0

/-- `(cqe->status >> 0) & 1`. -/
def phaseBit (e : CQEntry) : Nat := e.status % 2

/-- `(cqe->status >> 1) & 0x7FF`. -/
def statusCode (e : CQEntry) : Nat := (e.status >>> 1) % 2048

/-- `NVME_SC_SUCCESS` from `nvme.h`. -/
def NVME_SC_SUCCESS : Nat := 0x00

/-- `nvme_wait_completion` with `fuel` poll iterations remaining.  At each
iteration it reads the head entry; if the phase bit equals `cq_phase` and
the command id matches, it extracts the status code, advances `cq_head`
modulo `cq_size` (flipping `cq_phase` when the head wraps to 0), rings the
doorbell and returns success iff the status code is zero; otherwise it
polls again.  Fuel exhaustion is the 5-second timeout. -/
def nvme_wait_completion (cid : Nat) : (Nat → CQEntry) → Nat → QueuePair → WaitResult
  | _, 0, qp => ⟨KErr.E_TIMEOUT, qp, none⟩
  | read, fuel + 1, qp =>
      let cqe := read 0
      if phaseBit cqe = qp.cq_phase ∧ cqe.cid = cid then
        let status := statusCode cqe
        let head1 := (qp.cq_head + 1) % qp.cq_size
        let phase1 := if head1 = 0 then cNot qp.cq_phase else qp.cq_phase
        ⟨if status = NVME_SC_SUCCESS then KErr.E_OK else KErr.E_HARDWARE,
         ⟨qp.cq_size, head1, phase1⟩, some head1⟩
      else nvme_wait_completion cid (fun j => read (j + 1)) fuel qp

/-- The timeout constant `5e6` used by the driver. -/
def POLL_TIMEOUT : Nat := 5000000

/-- The entry observed at iteration `k` belongs to the current sweep and
carries the awaited command id. -/
def MatchAt (read : Nat → CQEntry) (qp : QueuePair) (cid k : Nat) : Prop :=
  phaseBit (read k) = qp.cq_phase ∧ (read k).cid = cid

instance (read : Nat → CQEntry) (qp : QueuePair) (cid k : Nat) :
    Decidable (MatchAt read qp cid k) := by
  unfold MatchAt; infer_instance

theorem wrap_iff (h n : Nat) (hh : h < n) : (h + 1) % n = 0 ↔ h = n - 1 := by
  constructor
  · intro hz
    rcases Nat.lt_or_ge (h + 1) n with hlt | hge
    · rw [Nat.mod_eq_of_lt hlt] at hz; omega
    · have : h + 1 = n := by omega
      omega
  · intro he
    subst he
    have : n - 1 + 1 = n := by omega
    rw [this, Nat.mod_self]

end Nvme

/-- C2: if the first poll iteration `k0` (within the timeout budget) whose
observed entry has phase bit equal to `cq_phase` also carries the awaited
command id `cid`, then `nvme_wait_completion` returns `E_OK` iff that
entry's 11-bit status code (status word bits 1..11) is zero and
`E_HARDWARE` otherwise, advances `cq_head` by one modulo `cq_size`
(writing the new head to the doorbell), and flips `cq_phase` exactly when
the old head was `cq_size - 1`; entries at iterations before `k0` (whose
phase bit differs or whose id differs) are never consumed.  When no
iteration within the budget matches, it returns `E_TIMEOUT` with the queue
pair untouched and no doorbell write. -/
theorem C2_nvme_wait_completion_behaviour :
    (∀ (read : Nat → Nvme.CQEntry) (cid : Nat) (qp : Nvme.QueuePair) (fuel k0 : Nat),
      qp.cq_head < qp.cq_size → k0 < fuel → Nvme.MatchAt read qp cid k0 →
      (∀ j, j < k0 → ¬ Nvme.MatchAt read qp cid j) →
      Nvme.nvme_wait_completion cid read fuel qp =
        ⟨if Nvme.statusCode (read k0) = Nvme.NVME_SC_SUCCESS then KErr.E_OK else KErr.E_HARDWARE,
         ⟨qp.cq_size, (qp.cq_head + 1) % qp.cq_size,
          if qp.cq_head = qp.cq_size - 1 then Nvme.cNot qp.cq_phase else qp.cq_phase⟩,
         some ((qp.cq_head + 1) % qp.cq_size)⟩) ∧
    (∀ (read : Nat → Nvme.CQEntry) (cid : Nat) (qp : Nvme.QueuePair) (fuel : Nat),
      (∀ j, j < fuel → ¬ Nvme.MatchAt read qp cid j) →
      Nvme.nvme_wait_completion cid read fuel qp = ⟨KErr.E_TIMEOUT, qp, none⟩) := by
  constructor
  · intro read cid qp fuel k0
    induction k0 generalizing read fuel with
    | zero =>
        intro hh hk hm _
        cases fuel with
        | zero => omega
        | succ f =>
            have hm' : Nvme.phaseBit (read 0) = qp.cq_phase ∧ (read 0).cid = cid := hm
            simp only [Nvme.nvme_wait_completion]
            rw [if_pos hm']
            have : ((qp.cq_head + 1) % qp.cq_size = 0) = (qp.cq_head = qp.cq_size - 1) := by
              have := Nvme.wrap_iff qp.cq_head qp.cq_size hh
              simp [this]
            simp only [this]
    | succ k ih =>
        intro hh hk hm hleast
        cases fuel with
        | zero => omega
        | succ f =>
            have hn : ¬ (Nvme.phaseBit (read 0) = qp.cq_phase ∧ (read 0).cid = cid) :=
              hleast 0 (Nat.succ_pos k)
            simp only [Nvme.nvme_wait_completion]
            rw [if_neg hn]
            exact ih (fun j => read (j + 1)) f hh (by omega) hm
              (fun j hj => hleast (j + 1) (by omega))
  · intro read cid qp fuel
    induction fuel generalizing read with
    | zero => intro _; rfl
    | succ f ih =>
        intro h
        have hn : ¬ (Nvme.phaseBit (read 0) = qp.cq_phase ∧ (read 0).cid = cid) :=
          h 0 (Nat.succ_pos f)
        simp only [Nvme.nvme_wait_completion]
        rw [if_neg hn]
        exact ih (fun j => read (j + 1)) (fun j hj => h (j + 1) (by omega))

/-- Witness for C2: a two-entry sweep where the first observed entry is
stale (wrong phase), the second matches command id 7 with status code 0;
the queue pair has `cq_size = 4`, `cq_head = 3`, so the head wraps to 0 and
the phase flips; and a no-match stream that times out. -/
theorem C2_nvme_wait_completion_behaviour_witness :
    Nvme.nvme_wait_completion 7
        (fun k => if k = 0 then ⟨0, 7⟩ else ⟨1, 7⟩) Nvme.POLL_TIMEOUT ⟨4, 3, 1⟩ =
      ⟨KErr.E_OK, ⟨4, 0, 0⟩, some 0⟩ ∧
    Nvme.nvme_wait_completion 7 (fun _ => ⟨0, 7⟩) 3 ⟨4, 3, 1⟩ =
      ⟨KErr.E_TIMEOUT, ⟨4, 3, 1⟩, none⟩ := by
  constructor
  · have := C2_nvme_wait_completion_behaviour.1
      (fun k => if k = 0 then ⟨0, 7⟩ else ⟨1, 7⟩) 7 ⟨4, 3, 1⟩ Nvme.POLL_TIMEOUT 1
      (by decide) (by decide) (by decide)
      (by intro j hj; interval_cases j; decide)
    simpa using this
  · have := C2_nvme_wait_completion_behaviour.2 (fun _ => ⟨0, 7⟩) 7 ⟨4, 3, 1⟩ 3
      (by intro j hj; interval_cases j <;> decide)
    simpa using this

namespace Slab

/-! Slab allocator, from `src/mm/allocators/slab.c`.

Object and slab addresses are `Nat` (the virtual addresses the C code
manipulates).  The source field `slabs_partial` / state `SLAB_PARTIAL` are
rendered here as `slabsMidway` / `SLAB_PART`.  A slab's free list is the
list of free slot addresses with the C list's head first.  The buddy pages
backing a fresh slab are supplied by the caller (`freshMem`), abstracting
`buddy_alloc_order` + `PHYS_TO_VIRT`; `headerSize` is
`align_size(sizeof(slab_t), SLAB_ALIGN)`. -/

/-- `slab_state_t`. -/
inductive SlabSt where
  | SLAB_EMPTY
  | SLAB_PART
  | SLAB_FULL
deriving DecidableEq, Repr

/-- The fields of `slab_t` the allocation paths use. -/
structure SlabRec where
  objects : Nat
  freeList : List Nat
  numObjects : Nat
  freeObjects : Nat
  state : SlabSt
deriving DecidableEq, Repr

/-- The fields of `slab_cache_t` the allocation paths use (`slabsMidway`
is the source's `slabs_partial`). -/
structure Cache where
  alignedSize : Nat
  objectsPerSlab : Nat
  slabsFull : List SlabRec
  slabsMidway : List SlabRec
  slabsEmpty : List SlabRec
  numAllocations : Nat
  numFrees : Nat
  numSlabs : Nat
  numActiveObjects : Nat
deriving DecidableEq, Repr

/-- A cache as produced by `slab_cache_create`: no slabs, zero counters. -/
def freshCache (alignedSize objectsPerSlab : Nat) : Cache :=
  ⟨alignedSize, objectsPerSlab, [], [], [], 0, 0, 0, 0⟩

/-- The free-list initialisation loop of `allocate_slab`: slot `i` lives at
`objStart + i * alignedSize` and slots are pushed in increasing address
order, so the head of the resulting list is the highest slot. -/
def buildFreeList (objStart alignedSize : Nat) : Nat → List Nat
  | 0 => []
  | i + 1 => (objStart + i * alignedSize) :: buildFreeList objStart alignedSize i

/-- `allocate_slab` (`slab.c:102-140`): carve a slab header plus
`objects_per_slab` slots out of a fresh buddy block at virtual address
`mem`, build the free list, and bump the cache's `num_slabs`. -/
def allocate_slab (cache : Cache) (mem headerSize : Nat) : SlabRec × Cache :=
  (⟨mem + headerSize,
    buildFreeList (mem + headerSize) cache.alignedSize cache.objectsPerSlab,
    cache.objectsPerSlab, cache.objectsPerSlab, SlabSt.SLAB_EMPTY⟩,
   { cache with numSlabs := cache.numSlabs + 1 })

/-- `add_slab_to_list`: prepend the slab to the list selected by its state. -/
def add_slab_to_list (c : Cache) (s : SlabRec) : Cache :=
  match s.state with
  | SlabSt.SLAB_EMPTY => { c with slabsEmpty := s :: c.slabsEmpty }
  | SlabSt.SLAB_PART => { c with slabsMidway := s :: c.slabsMidway }
  | SlabSt.SLAB_FULL => { c with slabsFull := s :: c.slabsFull }

/-- The tail of `slab_alloc` (`slab.c:304-333`) operating on the chosen
slab `s`: pop the head of its free list, decrement `free_objects`, set the
state to `SLAB_FULL`/`SLAB_PARTIAL`, and requeue the slab.  `orig` is the
cache as it was on entry (returned when the free list is unexpectedly
empty, mirroring the `if (!obj) return NULL` path on which the C code
leaves everything untouched); `detached` is the cache with `s` unlinked
from whichever list held it. -/
def slabAllocFrom (orig detached : Cache) (s : SlabRec) : Option Nat × Cache :=
  match s.freeList with
  | [] => (none, orig)
  | obj :: restFree =>
      let s1 : SlabRec := { s with freeList := restFree, freeObjects := s.freeObjects - 1 }
      let s2 : SlabRec :=
        { s1 with state := if s1.freeObjects = 0 then SlabSt.SLAB_FULL else SlabSt.SLAB_PART }
      let c2 := add_slab_to_list detached s2
      (some obj,
        { c2 with numAllocations := c2.numAllocations + 1,
                  numActiveObjects := c2.numActiveObjects + 1 })

/-- `slab_alloc` (`slab.c:283-334`): prefer the head of the partial list,
else the head of the empty list, else allocate a fresh slab from buddy
(`freshMem`, `none` when buddy is exhausted). -/
def slab_alloc (cache : Cache) (freshMem : Option Nat) (headerSize : Nat) :
    Option Nat × Cache :=
  match cache.slabsMidway with
  | s :: rest => slabAllocFrom cache { cache with slabsMidway := rest } s
  | [] =>
      match cache.slabsEmpty with
      | s :: rest => slabAllocFrom cache { cache with slabsEmpty := rest } s
      | [] =>
          match freshMem with
          | none => (none, cache)
          | some mem =>
              let sc := allocate_slab cache mem headerSize
              slabAllocFrom (add_slab_to_list sc.2 sc.1) sc.2 sc.1

/-- The address-range ownership test of `slab_free` (`slab.c:349-352`). -/
def slabRange (cache : Cache) (s : SlabRec) (obj : Nat) : Bool :=
  decide (s.objects ≤ obj) &&
    decide (obj < s.objects + cache.objectsPerSlab * cache.alignedSize)

/-- Split a slab list at the first slab satisfying `p`. -/
def splitAtSlab (p : SlabRec → Bool) : List SlabRec →
    Option (List SlabRec × SlabRec × List SlabRec)
  | [] => none
  | s :: rest =>
      if p s then some ([], s, rest)
      else
        match splitAtSlab p rest with
        | none => none
        | some (pre, t, post) => some (s :: pre, t, post)

/-- Which slab list a found slab was on. -/
inductive ListTag where
  | full
  | midway
  | empty
deriving DecidableEq, Repr

/-- The tail of `slab_free` (`slab.c:368-391`): push the object on the
slab's free list, increment `free_objects`, recompute the state, and move
the slab between lists when the state changed (otherwise it stays in
place). -/
def slabFreeInto (cache : Cache) (tag : ListTag) (pre : List SlabRec) (s : SlabRec)
    (post : List SlabRec) (obj : Nat) : Cache :=
  let s1 : SlabRec := { s with freeList := obj :: s.freeList, freeObjects := s.freeObjects + 1 }
  let s2 : SlabRec :=
    { s1 with
      state := if s1.freeObjects = s1.numObjects then SlabSt.SLAB_EMPTY else SlabSt.SLAB_PART }
  let c1 :=
    if s2.state = s.state then
      match tag with
      | ListTag.full => { cache with slabsFull := pre ++ s2 :: post }
      | ListTag.midway => { cache with slabsMidway := pre ++ s2 :: post }
      | ListTag.empty => { cache with slabsEmpty := pre ++ s2 :: post }
    else
      let removed :=
        match tag with
        | ListTag.full => { cache with slabsFull := pre ++ post }
        | ListTag.midway => { cache with slabsMidway := pre ++ post }
        | ListTag.empty => { cache with slabsEmpty := pre ++ post }
      add_slab_to_list removed s2
  { c1 with numFrees := c1.numFrees + 1, numActiveObjects := c1.numActiveObjects - 1 }

/-- `slab_free` (`slab.c:336-391`): locate the owning slab by address-range
scan over the full, then partial, then empty list; if no slab owns the
object, warn and leave the cache untouched. -/
def slab_free (cache : Cache) (obj : Nat) : Cache :=
  let p := fun s => slabRange cache s obj
  match splitAtSlab p cache.slabsFull with
  | some (pre, s, post) => slabFreeInto cache ListTag.full pre s post obj
  | none =>
      match splitAtSlab p cache.slabsMidway with
      | some (pre, s, post) => slabFreeInto cache ListTag.midway pre s post obj
      | none =>
          match splitAtSlab p cache.slabsEmpty with
          | some (pre, s, post) => slabFreeInto cache ListTag.empty pre s post obj
          | none => cache

end Slab

/-- C6: on a fresh cache with at least two slots per slab (and a positive
aligned object size), `slab_alloc` carves a new slab and returns its
highest slot; `slab_free` of that object finds the slab on the partial
list, returns the slot to the head of the free list and moves the slab to
the empty list; the next `slab_alloc` takes the empty slab's free-list
head, which is the very same address. -/
theorem C6_slab_alloc_free_alloc_same (sz N hdr mem : Nat) (hN : 2 ≤ N) (hsz : 1 ≤ sz) :
    (Slab.slab_alloc (Slab.freshCache sz N) (some mem) hdr).1 =
        some (mem + hdr + (N - 1) * sz) ∧
      (Slab.slab_alloc
          (Slab.slab_free (Slab.slab_alloc (Slab.freshCache sz N) (some mem) hdr).2
            (mem + hdr + (N - 1) * sz)) none hdr).1 =
        some (mem + hdr + (N - 1) * sz) := by
  obtain ⟨m, rfl⟩ : ∃ m, N = m + 2 := ⟨N - 2, by omega⟩
  simp only [show m + 2 - 1 = m + 1 from rfl]
  have hstep1 : Slab.slab_alloc (Slab.freshCache sz (m + 2)) (some mem) hdr =
      (some (mem + hdr + (m + 1) * sz),
        { alignedSize := sz, objectsPerSlab := m + 2, slabsFull := [],
          slabsMidway :=
            [⟨mem + hdr, (mem + hdr + m * sz) :: Slab.buildFreeList (mem + hdr) sz m,
              m + 2, m + 1, Slab.SlabSt.SLAB_PART⟩],
          slabsEmpty := [], numAllocations := 1, numFrees := 0, numSlabs := 1,
          numActiveObjects := 1 }) := by
    simp [Slab.slab_alloc, Slab.freshCache, Slab.allocate_slab, Slab.buildFreeList,
      Slab.slabAllocFrom, Slab.add_slab_to_list]
  have h1 : mem + hdr ≤ mem + hdr + (m + 1) * sz := by omega
  have h2 : mem + hdr + (m + 1) * sz < mem + hdr + (m + 2) * sz := by
    have : (m + 1) * sz < (m + 2) * sz := by
      exact Nat.mul_lt_mul_of_lt_of_le (by omega) (Nat.le_refl sz) (by omega)
    omega
  have hEq : m + 1 + 1 = m + 2 := by omega
  have hstep2 : Slab.slab_free (Slab.slab_alloc (Slab.freshCache sz (m + 2)) (some mem) hdr).2
      (mem + hdr + (m + 1) * sz) =
      { alignedSize := sz, objectsPerSlab := m + 2, slabsFull := [], slabsMidway := [],
        slabsEmpty :=
          [⟨mem + hdr,
            (mem + hdr + (m + 1) * sz) :: (mem + hdr + m * sz) ::
              Slab.buildFreeList (mem + hdr) sz m,
            m + 2, m + 2, Slab.SlabSt.SLAB_EMPTY⟩],
        numAllocations := 1, numFrees := 1, numSlabs := 1, numActiveObjects := 0 } := by
    rw [hstep1]
    simp [Slab.slab_free, Slab.splitAtSlab, Slab.slabRange, Slab.slabFreeInto,
      Slab.add_slab_to_list, h1, h2, hEq]
  refine ⟨?_, ?_⟩
  · rw [hstep1]
  · rw [hstep2]
    simp [Slab.slab_alloc, Slab.slabAllocFrom, Slab.add_slab_to_list]

/-- Witness for C6: aligned size 8, two objects per slab, header 40, slab
memory at 4096; both allocations return slot 4144. -/
theorem C6_slab_alloc_free_alloc_same_witness :
    (Slab.slab_alloc (Slab.freshCache 8 2) (some 4096) 40).1 =
        some (4096 + 40 + (2 - 1) * 8) ∧
      (Slab.slab_alloc
          (Slab.slab_free (Slab.slab_alloc (Slab.freshCache 8 2) (some 4096) 40).2
            (4096 + 40 + (2 - 1) * 8)) none 40).1 =
        some (4096 + 40 + (2 - 1) * 8) :=
  C6_slab_alloc_free_alloc_same 8 2 40 4096 (by decide) (by decide)

namespace Tty

/-! TTY line discipline, from `src/tty/tty.c` and `src/tty/tty.h`.

The ring buffer is a function from indices to bytes; console output and
`task_unblock` calls are recorded as observable effects.  Task pointers
are task ids (`Nat`). -/

def TTY_BUFFER_SIZE : Nat := 256

/-- `tty_t` (waiting task as an id, `none` = `NULL`). -/
structure TtyState where
  buffer : Nat → Nat
  read_pos : Nat
  write_pos : Nat
  count : Nat
  waiting_task : Option Nat
  echo_enabled : Bool

/-- Pointwise function update (a memory store). -/
def updFn (f : Nat → Nat) (i v : Nat) : Nat → Nat :=
  fun j => if j = i then v else f j

/-- Console side effects of `tty_input_char`. -/
inductive ConsoleEv where
  | putc (c : Nat)
  | backspace
deriving DecidableEq, Repr

/-- Result of `tty_input_char`: new TTY state, console output, and the
task passed to `task_unblock` (if any). -/
structure InputResult where
  tty : TtyState
  console : List ConsoleEv
  unblocked : Option Nat

/-- `tty_input_char`, from `src/tty/tty.c:24-63`.  The backspace branch
computes `(write_pos - 1 + TTY_BUFFER_SIZE) % TTY_BUFFER_SIZE` in `size_t`
arithmetic, which for `write_pos < 2^64 - 255` equals
`(write_pos + TTY_BUFFER_SIZE - 1) % TTY_BUFFER_SIZE`. -/
def tty_input_char (t : TtyState) (c : Nat) : InputResult :=
  if c = 8 then
    if t.count > 0 then
      { tty := { t with
          write_pos := (t.write_pos + TTY_BUFFER_SIZE - 1) % TTY_BUFFER_SIZE,
          count := t.count - 1 },
        console := if t.echo_enabled then [ConsoleEv.backspace] else [],
        unblocked := none }
    else { tty := t, console := [], unblocked := none }
  else
    let echo1 : List ConsoleEv :=
      if t.echo_enabled ∧ c ≠ 10 then [ConsoleEv.putc c] else []
    let t1 : TtyState :=
      if t.count < TTY_BUFFER_SIZE then
        { t with buffer := updFn t.buffer t.write_pos c,
                 write_pos := (t.write_pos + 1) % TTY_BUFFER_SIZE,
                 count := t.count + 1 }
      else t
    if c = 10 then
      let echo2 : List ConsoleEv := if t1.echo_enabled then [ConsoleEv.putc 10] else []
      match t1.waiting_task with
      | some task =>
          { tty := { t1 with waiting_task := none },
            console := echo1 ++ echo2, unblocked := some task }
      | none => { tty := t1, console := echo1 ++ echo2, unblocked := none }
    else { tty := t1, console := echo1, unblocked := none }

/-- The newline scan of `tty_read` (`tty.c:74-97`): inspect `k` buffered
bytes starting at `pos`, wrapping modulo the capacity. -/
def scanForNewline (buf : Nat → Nat) : Nat → Nat → Bool
  | _, 0 => false
  | pos, k + 1 =>
      if buf pos = 10 then true
      else scanForNewline buf ((pos + 1) % TTY_BUFFER_SIZE) k

/-- The copy loop of `tty_read` (`tty.c:100-111`): consume bytes while the
buffer is non-empty (`cnt`) and fewer than `size - 1` bytes (`budget`)
were copied, stopping after a newline.  Returns the copied bytes, the
final `read_pos`, and the final `count`. -/
def copyLoop (buf : Nat → Nat) : Nat → Nat → Nat → List Nat × Nat × Nat
  | pos, 0, _ => ([], pos, 0)
  | pos, cnt + 1, 0 => ([], pos, cnt + 1)
  | pos, cnt + 1, budget + 1 =>
      let c := buf pos
      let pos1 := (pos + 1) % TTY_BUFFER_SIZE
      if c = 10 then ([c], pos1, cnt)
      else
        let r := copyLoop buf pos1 cnt budget
        (c :: r.1, r.2.1, r.2.2)

/-- The sequential stores `buffer[bytes_read++] = c` of the copy loop. -/
def writeBytes (dest : Nat → Nat) : Nat → List Nat → Nat → Nat
  | _, [] => dest
  | i, b :: bs => writeBytes (updFn dest i b) (i + 1) bs

/-- Outcome of one pass of `tty_read`'s outer loop: either the task
records itself as `waiting_task` and blocks, or the line is copied out. -/
inductive ReadOutcome where
  | blocked (t : TtyState)
  | done (t : TtyState) (dest : Nat → Nat) (ret : Nat)

/-- One pass of `tty_read` (`src/tty/tty.c:65-122`) for the current task
`cur` reading into the caller buffer `dest` with capacity `size` (a
`size_t`, so the `size - 1` bound wraps modulo `2^64`): scan the buffered
bytes for a newline; block if absent; otherwise copy up to and including
the first newline (at most `size - 1` bytes), advance `read_pos` and
`count`, store a terminating NUL, and return the byte count. -/
def tty_read (t : TtyState) (cur : Nat) (dest : Nat → Nat) (size : Nat) : ReadOutcome :=
  if scanForNewline t.buffer t.read_pos t.count then
    let budget := (size + 2 ^ 64 - 1) % 2 ^ 64
    let r := copyLoop t.buffer t.read_pos t.count budget
    let n := r.1.length
    ReadOutcome.done
      { t with read_pos := r.2.1, count := r.2.2 }
      (updFn (writeBytes dest 0 r.1) n 0) n
  else ReadOutcome.blocked { t with waiting_task := some cur }

theorem scanForNewline_spec (buf : Nat → Nat) (pos cnt : Nat) (hpos : pos < TTY_BUFFER_SIZE) :
    scanForNewline buf pos cnt = true ↔
      ∃ j, j < cnt ∧ buf ((pos + j) % TTY_BUFFER_SIZE) = 10 := by
  induction cnt generalizing pos with
  | zero => simp [scanForNewline]
  | succ k ih =>
      unfold scanForNewline
      by_cases hc : buf pos = 10
      · simp only [hc, if_pos rfl]
        constructor
        · intro _
          exact ⟨0, Nat.succ_pos k, by simpa [Nat.mod_eq_of_lt hpos] using hc⟩
        · intro _; rfl
      · rw [if_neg hc]
        rw [ih ((pos + 1) % TTY_BUFFER_SIZE) (Nat.mod_lt _ (by decide))]
        constructor
        · rintro ⟨j, hj, hbuf⟩
          refine ⟨j + 1, by omega, ?_⟩
          rw [Nat.mod_add_mod] at hbuf
          have h' : pos + 1 + j = pos + (j + 1) := by omega
          rwa [h'] at hbuf
        · rintro ⟨j, hj, hbuf⟩
          cases j with
          | zero =>
              rw [Nat.add_zero, Nat.mod_eq_of_lt hpos] at hbuf
              exact absurd hbuf hc
          | succ j =>
              refine ⟨j, by omega, ?_⟩
              rw [Nat.mod_add_mod]
              have : pos + 1 + j = pos + (j + 1) := by omega
              rwa [this]

theorem copyLoop_spec (buf : Nat → Nat) (j0 : Nat) :
    ∀ pos cnt budget, pos < TTY_BUFFER_SIZE → j0 < cnt →
    buf ((pos + j0) % TTY_BUFFER_SIZE) = 10 →
    (∀ j, j < j0 → buf ((pos + j) % TTY_BUFFER_SIZE) ≠ 10) →
    copyLoop buf pos cnt budget =
      ((List.range (min (j0 + 1) budget)).map
          (fun i => buf ((pos + i) % TTY_BUFFER_SIZE)),
        (pos + min (j0 + 1) budget) % TTY_BUFFER_SIZE,
        cnt - min (j0 + 1) budget) := by
  induction j0 with
  | zero =>
      intro pos cnt budget hpos hj hnl _
      obtain ⟨c, rfl⟩ : ∃ c, cnt = c + 1 := ⟨cnt - 1, by omega⟩
      rw [Nat.add_zero, Nat.mod_eq_of_lt hpos] at hnl
      cases budget with
      | zero => simp [copyLoop, Nat.mod_eq_of_lt hpos]
      | succ b =>
          simp [copyLoop, hnl, Nat.min_def, List.range_succ, Nat.mod_eq_of_lt hpos]
  | succ k ih =>
      intro pos cnt budget hpos hj hnl hmin
      obtain ⟨c, rfl⟩ : ∃ c, cnt = c + 1 := ⟨cnt - 1, by omega⟩
      have hc : buf pos ≠ 10 := by
        have := hmin 0 (Nat.succ_pos k)
        rwa [Nat.add_zero, Nat.mod_eq_of_lt hpos] at this
      cases budget with
      | zero => simp [copyLoop, Nat.mod_eq_of_lt hpos]
      | succ b =>
          have hpos1 : (pos + 1) % TTY_BUFFER_SIZE < TTY_BUFFER_SIZE :=
            Nat.mod_lt _ (by decide)
          have hrec := ih ((pos + 1) % TTY_BUFFER_SIZE) c b hpos1 (by omega)
            (by rw [Nat.mod_add_mod]; have : pos + 1 + k = pos + (k + 1) := by omega
                rwa [this])
            (by intro j hjk
                rw [Nat.mod_add_mod]
                have : pos + 1 + j = pos + (j + 1) := by omega
                rw [this]
                exact hmin (j + 1) (by omega))
          have hminSucc : min (k + 1 + 1) (b + 1) = min (k + 1) b + 1 := by omega
          simp only [copyLoop, if_neg hc, hrec, hminSucc, Prod.mk.injEq]
          refine ⟨?_, ?_, ?_⟩
          · rw [List.range_succ_eq_map]
            simp only [List.map_cons, List.map_map]
            refine congrArg₂ _ ?_ ?_
            · rw [Nat.add_zero, Nat.mod_eq_of_lt hpos]
            · apply List.map_congr_left
              intro i _
              simp only [Function.comp_apply, Nat.succ_eq_add_one]
              rw [Nat.mod_add_mod]
              have : pos + 1 + i = pos + (i + 1) := by omega
              rw [this]
          · rw [Nat.mod_add_mod]
            have : pos + 1 + min (k + 1) b = pos + (min (k + 1) b + 1) := by omega
            rw [this]
          · omega

theorem writeBytes_spec (bs : List Nat) :
    ∀ (dest : Nat → Nat) (i j : Nat),
      writeBytes dest i bs j =
        if i ≤ j ∧ j < i + bs.length then bs.getD (j - i) 0 else dest j := by
  induction bs with
  | nil =>
      intro dest i j
      simp only [writeBytes, List.length_nil, Nat.add_zero]
      rw [if_neg (by omega)]
  | cons b rest ih =>
      intro dest i j
      rw [writeBytes, ih]
      simp only [List.length_cons]
      rcases Nat.lt_trichotomy j i with hji | hji | hji
      · rw [if_neg (by omega), if_neg (by omega), updFn, if_neg (by omega)]
      · subst hji
        rw [if_neg (by omega), if_pos (by omega), updFn, if_pos rfl]
        simp
      · by_cases hj2 : j < i + rest.length + 1
        · rw [if_pos (by omega), if_pos (by omega)]
          obtain ⟨d, rfl⟩ : ∃ d, j = i + (d + 1) := ⟨j - i - 1, by omega⟩
          have h1 : i + (d + 1) - (i + 1) = d := by omega
          have h2 : i + (d + 1) - i = d + 1 := by omega
          rw [h1, h2]
          simp
        · rw [if_neg (by omega), if_neg (by omega), updFn, if_neg (by omega)]

end Tty

/-- C10: when the ring buffer is full (`count = TTY_BUFFER_SIZE`),
`tty_input_char` on a non-backspace character leaves the buffer contents,
`write_pos`, `read_pos` and `count` unchanged (the character is silently
dropped); a regular character is still echoed when echo is enabled; and a
dropped newline still echoes, clears `waiting_task` and passes the
previously waiting task to `task_unblock`. -/
theorem C10_tty_input_char_full_buffer (t : Tty.TtyState) (c : Nat)
    (hfull : t.count = Tty.TTY_BUFFER_SIZE) (hc : c ≠ 8) :
    (Tty.tty_input_char t c).tty.buffer = t.buffer ∧
      (Tty.tty_input_char t c).tty.write_pos = t.write_pos ∧
      (Tty.tty_input_char t c).tty.read_pos = t.read_pos ∧
      (Tty.tty_input_char t c).tty.count = t.count ∧
      (c ≠ 10 →
        (Tty.tty_input_char t c).console =
            (if t.echo_enabled then [Tty.ConsoleEv.putc c] else []) ∧
          (Tty.tty_input_char t c).tty.waiting_task = t.waiting_task ∧
          (Tty.tty_input_char t c).unblocked = none) ∧
      (c = 10 →
        (Tty.tty_input_char t c).console =
            (if t.echo_enabled then [Tty.ConsoleEv.putc 10] else []) ∧
          (Tty.tty_input_char t c).tty.waiting_task = none ∧
          (Tty.tty_input_char t c).unblocked = t.waiting_task) := by
  have hnlt : ¬ t.count < Tty.TTY_BUFFER_SIZE := by rw [hfull]; exact Nat.lt_irrefl _
  by_cases hc10 : c = 10
  · subst hc10
    cases hw : t.waiting_task with
    | none => simp [Tty.tty_input_char, hnlt, hw]
    | some task => simp [Tty.tty_input_char, hnlt, hw]
  · simp [Tty.tty_input_char, hc, hc10, hnlt]

/-- Witness for C10: a full buffer with a waiting task 3 and echo on; a
dropped newline echoes, clears the waiting slot and unblocks task 3. -/
theorem C10_tty_input_char_full_buffer_witness :
    (Tty.tty_input_char ⟨fun _ => 65, 0, 0, 256, some 3, true⟩ 10).tty.buffer =
        (⟨fun _ => 65, 0, 0, 256, some 3, true⟩ : Tty.TtyState).buffer ∧
      (Tty.tty_input_char ⟨fun _ => 65, 0, 0, 256, some 3, true⟩ 10).tty.write_pos = 0 ∧
      (Tty.tty_input_char ⟨fun _ => 65, 0, 0, 256, some 3, true⟩ 10).tty.read_pos = 0 ∧
      (Tty.tty_input_char ⟨fun _ => 65, 0, 0, 256, some 3, true⟩ 10).tty.count = 256 ∧
      ((10 : Nat) ≠ 10 →
        (Tty.tty_input_char ⟨fun _ => 65, 0, 0, 256, some 3, true⟩ 10).console =
            (if true then [Tty.ConsoleEv.putc 10] else []) ∧
          (Tty.tty_input_char ⟨fun _ => 65, 0, 0, 256, some 3, true⟩ 10).tty.waiting_task =
            some 3 ∧
          (Tty.tty_input_char ⟨fun _ => 65, 0, 0, 256, some 3, true⟩ 10).unblocked = none) ∧
      ((10 : Nat) = 10 →
        (Tty.tty_input_char ⟨fun _ => 65, 0, 0, 256, some 3, true⟩ 10).console =
            (if true then [Tty.ConsoleEv.putc 10] else []) ∧
          (Tty.tty_input_char ⟨fun _ => 65, 0, 0, 256, some 3, true⟩ 10).tty.waiting_task =
            none ∧
          (Tty.tty_input_char ⟨fun _ => 65, 0, 0, 256, some 3, true⟩ 10).unblocked = some 3) :=
  C10_tty_input_char_full_buffer ⟨fun _ => 65, 0, 0, 256, some 3, true⟩ 10 rfl (by decide)

/-- C4: one pass of `tty_read` (capacity `size ≥ 1`, expressible in
`size_t`): when none of the `count` buffered bytes starting at `read_pos`
is a newline, the task records itself as `waiting_task` and blocks; when
the first newline sits `j0` bytes in, it copies
`n = min (j0 + 1) (size - 1)` bytes (up to and including the newline,
truncated to `size - 1`) into the caller's buffer, stores a NUL after
them, advances `read_pos` by `n` modulo the capacity, decrements `count`
by `n`, and returns `n`. -/
theorem C4_tty_read_line (t : Tty.TtyState) (cur : Nat) (dest : Nat → Nat) (size : Nat)
    (hpos : t.read_pos < Tty.TTY_BUFFER_SIZE) (hsz : 1 ≤ size) (hsz2 : size < 2 ^ 64) :
    ((∀ j, j < t.count → t.buffer ((t.read_pos + j) % Tty.TTY_BUFFER_SIZE) ≠ 10) →
        Tty.tty_read t cur dest size =
          Tty.ReadOutcome.blocked { t with waiting_task := some cur }) ∧
      (∀ j0, j0 < t.count →
        t.buffer ((t.read_pos + j0) % Tty.TTY_BUFFER_SIZE) = 10 →
        (∀ j, j < j0 → t.buffer ((t.read_pos + j) % Tty.TTY_BUFFER_SIZE) ≠ 10) →
        Tty.tty_read t cur dest size =
          Tty.ReadOutcome.done
            { t with
              read_pos := (t.read_pos + min (j0 + 1) (size - 1)) % Tty.TTY_BUFFER_SIZE,
              count := t.count - min (j0 + 1) (size - 1) }
            (fun i =>
              if i < min (j0 + 1) (size - 1) then
                t.buffer ((t.read_pos + i) % Tty.TTY_BUFFER_SIZE)
              else if i = min (j0 + 1) (size - 1) then 0
              else dest i)
            (min (j0 + 1) (size - 1))) := by
  have hbudget : (size + 2 ^ 64 - 1) % 2 ^ 64 = size - 1 := by omega
  constructor
  · intro hno
    have hscan : Tty.scanForNewline t.buffer t.read_pos t.count = false := by
      rcases Bool.eq_false_or_eq_true (Tty.scanForNewline t.buffer t.read_pos t.count)
        with h | h
      · obtain ⟨j, hj, hbuf⟩ :=
          (Tty.scanForNewline_spec t.buffer t.read_pos t.count hpos).1 h
        exact absurd hbuf (hno j hj)
      · exact h
    unfold Tty.tty_read
    rw [hscan]
    simp
  · intro j0 hj0 hnl hmin
    have hscan : Tty.scanForNewline t.buffer t.read_pos t.count = true :=
      (Tty.scanForNewline_spec t.buffer t.read_pos t.count hpos).2 ⟨j0, hj0, hnl⟩
    have hcopy := Tty.copyLoop_spec t.buffer j0 t.read_pos t.count (size - 1) hpos hj0
      hnl hmin
    unfold Tty.tty_read
    rw [hscan]
    simp only [if_true, hbudget, hcopy]
    have hlen : (List.map (fun i => t.buffer ((t.read_pos + i) % Tty.TTY_BUFFER_SIZE))
        (List.range (min (j0 + 1) (size - 1)))).length = min (j0 + 1) (size - 1) := by
      simp
    rw [hlen]
    have hdest : Tty.updFn
        (Tty.writeBytes dest 0
          (List.map (fun i => t.buffer ((t.read_pos + i) % Tty.TTY_BUFFER_SIZE))
            (List.range (min (j0 + 1) (size - 1)))))
        (min (j0 + 1) (size - 1)) 0 =
        (fun i =>
          if i < min (j0 + 1) (size - 1) then
            t.buffer ((t.read_pos + i) % Tty.TTY_BUFFER_SIZE)
          else if i = min (j0 + 1) (size - 1) then 0
          else dest i) := by
      funext i
      rw [Tty.updFn]
      by_cases hin : i = min (j0 + 1) (size - 1)
      · rw [if_pos hin, if_neg (by omega), if_pos hin]
      · rw [if_neg hin, Tty.writeBytes_spec]
        by_cases hlt : i < min (j0 + 1) (size - 1)
        · rw [if_pos (by simp; omega), if_pos hlt]
          rw [List.getD_eq_getElem _ _ (by simp; omega)]
          simp
        · rw [if_neg (by simp; omega), if_neg hlt, if_neg hin]
    rw [hdest]

/-- Witness for C4: reading "ls\n" (bytes 108, 115, 10 at positions 0..2)
with a 64-byte buffer copies 3 bytes and NUL-terminates; reading a buffer
with no newline blocks, recording task 5. -/
theorem C4_tty_read_line_witness :
    (Tty.tty_read
        ⟨fun i => if i = 0 then 108 else if i = 1 then 115 else if i = 2 then 10 else 0,
          0, 3, 3, none, true⟩ 5 (fun _ => 7) 64 =
      Tty.ReadOutcome.done
        { (⟨fun i => if i = 0 then 108 else if i = 1 then 115 else if i = 2 then 10 else 0,
            0, 3, 3, none, true⟩ : Tty.TtyState) with
          read_pos := (0 + min (2 + 1) (64 - 1)) % Tty.TTY_BUFFER_SIZE,
          count := 3 - min (2 + 1) (64 - 1) }
        (fun i =>
          if i < min (2 + 1) (64 - 1) then
            (fun i => if i = 0 then 108 else if i = 1 then 115 else if i = 2 then 10 else 0)
              ((0 + i) % Tty.TTY_BUFFER_SIZE)
          else if i = min (2 + 1) (64 - 1) then 0
          else (fun _ => 7) i)
        (min (2 + 1) (64 - 1))) ∧
      Tty.tty_read (⟨fun _ => 65, 0, 2, 2, none, true⟩ : Tty.TtyState) 5 (fun _ => 7) 64 =
        Tty.ReadOutcome.blocked
          { (⟨fun _ => 65, 0, 2, 2, none, true⟩ : Tty.TtyState) with
            waiting_task := some 5 } :=
  ⟨(C4_tty_read_line
      ⟨fun i => if i = 0 then 108 else if i = 1 then 115 else if i = 2 then 10 else 0,
        0, 3, 3, none, true⟩ 5 (fun _ => 7) 64 (by decide) (by decide) (by norm_num)).2
      2 (by decide) (by decide) (by intro j hj; interval_cases j <;> decide),
    (C4_tty_read_line (⟨fun _ => 65, 0, 2, 2, none, true⟩ : Tty.TtyState) 5 (fun _ => 7) 64
      (by decide) (by decide) (by norm_num)).1
      (by intro j hj; interval_cases j <;> decide)⟩

namespace Vfs

/-! VFS path helpers, from `src/fs/vfs.c`.

Paths are lists of characters.  `vfs_dirname` (`vfs.c:146-165`) declares
its loop index without an initialiser (`for(size_t i; i < len; i++)`), so
the scan for the last slash starts at whatever value `i` happens to hold;
the model makes that indeterminate start value an explicit parameter
`i0`. -/

/-- The last-slash scan of `vfs_dirname`, starting at the indeterminate
index `i`: while `i < len`, record `i` as `last_slash` whenever `path[i]`
is a slash.  `fuel` bounds the remaining iterations (passing `len` is
always enough). -/
def dirnameLoop (path : List Char) (len : Nat) : Nat → Nat → Nat → Nat
  | 0, _, last => last
  | fuel + 1, i, last =>
      if i < len then
        dirnameLoop path len fuel (i + 1) (if path.getD i ' ' = '/' then i else last)
      else last

/-- `vfs_dirname` with the indeterminate initial loop value `i0`: when the
computed `last_slash` is 0 the result is `"/"`, otherwise the first
`last_slash` characters of the path. -/
def vfs_dirname (i0 : Nat) (path : List Char) : List Char :=
  let len := path.length
  let last_slash := dirnameLoop path len len i0 0
  if last_slash = 0 then ['/']
  else path.take last_slash

/-- The scan of `vfs_basename` (`vfs.c:136-144`): the returned suffix
starts right after the last slash (0 when there is none). -/
def basenameLoop : List Char → Nat → Nat → Nat
  | [], _, ans => ans
  | c :: rest, i, ans => basenameLoop rest (i + 1) (if c = '/' then i + 1 else ans)

/-- `vfs_basename`. -/
def vfs_basename (path : List Char) : List Char :=
  path.drop (basenameLoop path 0 0)

end Vfs

/-- C7: `vfs_create_file` resolves the parent through `vfs_dirname`, but
`vfs_dirname`'s loop index is declared without an initialiser
(`for(size_t i; i < len; i++)`, `vfs.c:151`), so its result depends on an
indeterminate value: started at 0 it returns the claimed prefix "/d" of
"/d/x", but started at any value `≥ 4` (the path length) the loop body
never runs, `last_slash` stays 0 and it returns "/" - then
`vfs_create_file` creates basename "x" under the root rather than under
"/d", and "/d/x" does not resolve to the new node.  The claim describes
the evident intent (spec §9 flags this exact uninitialised variable), so
the code is in the wrong. -/
theorem C7_vfs_dirname_uninitialised :
    Vfs.vfs_dirname 0 ['/', 'd', '/', 'x'] = ['/', 'd'] ∧
      Vfs.vfs_dirname 4 ['/', 'd', '/', 'x'] = ['/'] ∧
      Vfs.vfs_dirname 4 ['/', 'd', '/', 'x'] ≠ Vfs.vfs_dirname 0 ['/', 'd', '/', 'x'] ∧
      Vfs.vfs_basename ['/', 'd', '/', 'x'] = ['x'] := by
  refine ⟨?_, ?_, ?_, ?_⟩ <;> decide

namespace Sched

/-! Task scheduler, from `src/scheduler/task.c` and `src/drivers/pit.c`.

Task pointers are task ids (`Nat`); the `tasks` field maps each id to the
mutable fields of its `task_t` that the scheduling paths touch.  The
ready queue and sleep queue (singly-linked via `next`) are lists of ids.
`current` is `current_task` (assumed non-NULL, as on any running system),
`idle` is the idle task created by `scheduler_init`, and `ticks` is the
PIT tick counter.  `task_switch` only swaps CPU contexts, which the model
does not represent; the scheduler state change it accompanies
(`current_task = new_task`) is performed before the call. -/

/-- `task_state_t`. -/
inductive TaskSt where
  | READY
  | RUNNING
  | BLOCKED
  | SLEEPING
  | TERMINATED
deriving DecidableEq, Repr

/-- The scheduling-relevant fields of `task_t`. -/
structure TaskRec where
  state : TaskSt
  time_slice : Nat
  total_runtime : Nat
  wake_time : Nat
deriving DecidableEq, Repr

/-- Global scheduler state. -/
structure SchedState where
  tasks : Nat → TaskRec
  current : Nat
  idle : Nat
  ready : List Nat
  sleepq : List Nat
  ticks : Nat

def TIME_SLICE_TICKS : Nat := 10

/-- Update one task's record. -/
def updTask (s : SchedState) (id : Nat) (f : TaskRec → TaskRec) : SchedState :=
  { s with tasks := fun j => if j = id then f (s.tasks j) else s.tasks j }

/-- `scheduler_add_task`: set the task `READY` and append it to the ready
queue. -/
def scheduler_add_task (s : SchedState) (id : Nat) : SchedState :=
  let s1 := updTask s id fun t => { t with state := TaskSt.READY }
  { s1 with ready := s1.ready ++ [id] }

/-- `scheduler_pick_next`: pop the ready-queue head, or fall back to the
idle task. -/
def scheduler_pick_next (s : SchedState) : Nat × SchedState :=
  match s.ready with
  | [] => (s.idle, s)
  | t :: rest => (t, { s with ready := rest })

/-- The walk of `scheduler_check_sleeping_tasks` over the remaining sleep
queue `l`: wake (move to the ready queue via `scheduler_add_task`) every
task whose `wake_time` has been reached; return the tasks kept on the
sleep queue (in order) and the updated state. -/
def sleepWalk (ticks : Nat) : SchedState → List Nat → List Nat × SchedState
  | s, [] => ([], s)
  | s, t :: rest =>
      if (s.tasks t).wake_time ≤ ticks then
        sleepWalk ticks (scheduler_add_task s t) rest
      else
        let r := sleepWalk ticks s rest
        (t :: r.1, r.2)

/-- `scheduler_check_sleeping_tasks` (`task.c:247-282`). -/
def scheduler_check_sleeping_tasks (s : SchedState) : SchedState :=
  if s.sleepq.isEmpty then s
  else
    let r := sleepWalk s.ticks s s.sleepq
    { r.2 with sleepq := r.1 }

/-- `task.c:289-295`: decrement the running task's remaining slice (when
positive) and increment its total runtime. -/
def chargeSlice (s : SchedState) : SchedState :=
  let s := if (s.tasks s.current).time_slice > 0 then
      updTask s s.current fun t => { t with time_slice := t.time_slice - 1 }
    else s
  updTask s s.current fun t => { t with total_runtime := t.total_runtime + 1 }

/-- `task.c:299-331`, after `scheduler_pick_next` has produced `next` and
the dequeued state `s1` (`old` is the preempted `current_task`): when
`next` differs, requeue `old` if it was still `RUNNING`, make `next` the
running task with a fresh slice, and context-switch; otherwise just reset
the slice. -/
def switchTo (s1 : SchedState) (old next : Nat) : SchedState :=
  if next ≠ old then
    let s2 :=
      if (s1.tasks old).state = TaskSt.RUNNING then
        scheduler_add_task
          (updTask s1 old fun t =>
            { t with state := TaskSt.READY, time_slice := TIME_SLICE_TICKS })
          old
      else s1
    let s3 := updTask s2 next fun t =>
      { t with state := TaskSt.RUNNING, time_slice := TIME_SLICE_TICKS }
    { s3 with current := next }
  else
    updTask s1 old fun t => { t with time_slice := TIME_SLICE_TICKS }

/-- The part of `scheduler_tick` after the `scheduler_check_sleeping_tasks`
call (`task.c:289-332`). -/
def scheduler_tick_core (s0 : SchedState) : SchedState :=
  let s := chargeSlice s0
  if (s.tasks s.current).time_slice = 0 then
    let pick := scheduler_pick_next s
    switchTo pick.2 s.current pick.1
  else s

/-- `scheduler_tick` (`task.c:284-333`): wake expired sleepers, then run
the slice/switch logic. -/
def scheduler_tick (s0 : SchedState) : SchedState :=
  scheduler_tick_core (scheduler_check_sleeping_tasks s0)

/-- `task_sleep` (`task.c:363-397`): ignore `ticks = 0` and the idle task;
otherwise set `wake_time = current_tick + ticks`, state `SLEEPING`, push
onto the sleep-queue head, zero the time slice and run `scheduler_tick`. -/
def task_sleep (s : SchedState) (ticks : Nat) : SchedState :=
  if ticks = 0 then s
  else if s.current = s.idle then s
  else
    let wake := s.ticks + ticks
    let s1 := updTask s s.current fun t =>
      { t with wake_time := wake, state := TaskSt.SLEEPING, time_slice := 0 }
    let s2 := { s1 with sleepq := s1.current :: s1.sleepq }
    scheduler_tick s2

/-- `pit_handler` (`pit.c:68-75`): increment the tick counter, then run the
scheduler tick. -/
def pit_handler (s : SchedState) : SchedState :=
  scheduler_tick { s with ticks := s.ticks + 1 }

/-- `k` consecutive PIT interrupts. -/
def runTicks : Nat → SchedState → SchedState
  | 0, s => s
  | k + 1, s => runTicks k (pit_handler s)

/-- The invariant of a task `τ` sleeping until tick `w`: it is `SLEEPING`
with that wake time, sits on the sleep queue, is on neither the ready
queue nor the CPU, and is not the idle task. -/
def Asleep (s : SchedState) (tau w : Nat) : Prop :=
  (s.tasks tau).state = TaskSt.SLEEPING ∧
    (s.tasks tau).wake_time = w ∧
    tau ∈ s.sleepq ∧
    tau ∉ s.ready ∧
    s.current ≠ tau ∧
    tau ≠ s.idle

end Sched

namespace Sched

/-- `sleepWalk` never touches `current`, `idle`, the `sleepq` field, or
the tick counter, and only ever appends to the ready queue. -/
theorem sleepWalk_frame (ticks : Nat) (l : List Nat) :
    ∀ s : SchedState,
      (sleepWalk ticks s l).2.current = s.current ∧
      (sleepWalk ticks s l).2.idle = s.idle ∧
      (sleepWalk ticks s l).2.sleepq = s.sleepq ∧
      (sleepWalk ticks s l).2.ticks = s.ticks ∧
      ∃ app : List Nat, (sleepWalk ticks s l).2.ready = s.ready ++ app := by
  induction l with
  | nil => intro s; exact ⟨rfl, rfl, rfl, rfl, [], by simp [sleepWalk]⟩
  | cons t rest ih =>
      intro s
      by_cases hc : (s.tasks t).wake_time ≤ ticks
      · have := ih (scheduler_add_task s t)
        simp only [sleepWalk, if_pos hc]
        refine ⟨this.1, this.2.1, this.2.2.1, this.2.2.2.1, ?_⟩
        obtain ⟨app, happ⟩ := this.2.2.2.2
        exact ⟨t :: app, by simpa [scheduler_add_task, updTask] using happ⟩
      · have := ih s
        simp only [sleepWalk, if_neg hc]
        exact this

/-- While `ticks < w`, a task whose `wake_time` is `w` is untouched by the
sleep-queue walk: its record is unchanged, it is kept on the sleep queue,
and it is not added to the ready queue. -/
theorem sleepWalk_notWoken (ticks w tau : Nat) (l : List Nat) :
    ∀ s : SchedState, (s.tasks tau).wake_time = w → ticks < w →
      ((sleepWalk ticks s l).2.tasks tau = s.tasks tau ∧
        (tau ∉ s.ready → tau ∉ (sleepWalk ticks s l).2.ready) ∧
        (tau ∈ l → tau ∈ (sleepWalk ticks s l).1)) := by
  induction l with
  | nil =>
      intro s _ _
      exact ⟨rfl, fun h => h, fun h => absurd h (List.not_mem_nil tau)⟩
  | cons t rest ih =>
      intro s hw hlt
      by_cases hc : (s.tasks t).wake_time ≤ ticks
      · have htne : t ≠ tau := by
          intro he; subst he; omega
        have hw1 : ((scheduler_add_task s t).tasks tau) = s.tasks tau := by
          simp [scheduler_add_task, updTask, htne, Ne.symm htne]
        have := ih (scheduler_add_task s t) (by rw [hw1]; exact hw) hlt
        simp only [sleepWalk, if_pos hc]
        refine ⟨by rw [this.1, hw1], ?_, ?_⟩
        · intro hnr
          refine this.2.1 ?_
          simp [scheduler_add_task, updTask]
          exact ⟨hnr, Ne.symm htne⟩
        · intro hmem
          rcases List.mem_cons.1 hmem with he | hm
          · exact absurd he.symm htne
          · exact this.2.2 hm
      · have := ih s hw hlt
        simp only [sleepWalk, if_neg hc]
        refine ⟨this.1, this.2.1, ?_⟩
        intro hmem
        rcases List.mem_cons.1 hmem with he | hm
        · subst he; exact List.mem_cons_self _ _
        · exact List.mem_cons_of_mem _ (this.2.2 hm)

/-- Tasks already on the ready queue with state `READY` stay there with
state `READY` through the sleep-queue walk. -/
theorem sleepWalk_readyStable (ticks x : Nat) (l : List Nat) :
    ∀ s : SchedState, x ∈ s.ready → (s.tasks x).state = TaskSt.READY →
      x ∈ (sleepWalk ticks s l).2.ready ∧
        ((sleepWalk ticks s l).2.tasks x).state = TaskSt.READY := by
  induction l with
  | nil => intro s hm hst; exact ⟨hm, hst⟩
  | cons t rest ih =>
      intro s hm hst
      by_cases hc : (s.tasks t).wake_time ≤ ticks
      · simp only [sleepWalk, if_pos hc]
        refine ih (scheduler_add_task s t) ?_ ?_
        · simp [scheduler_add_task, updTask]
          exact Or.inl hm
        · by_cases hx : x = t
          · subst hx; simp [scheduler_add_task, updTask]
          · simp [scheduler_add_task, updTask, hx]
            exact hst
      · simp only [sleepWalk, if_neg hc]
        exact ih s hm hst

/-- When `w ≤ ticks`, every sleep-queue occurrence of a task with
`wake_time = w` is woken by the walk: the task ends on the ready queue
with state `READY` and is dropped from the kept list. -/
theorem sleepWalk_wakes (ticks w tau : Nat) (l : List Nat) :
    ∀ s : SchedState, (s.tasks tau).wake_time = w → w ≤ ticks → tau ∈ l →
      (tau ∈ (sleepWalk ticks s l).2.ready ∧
        ((sleepWalk ticks s l).2.tasks tau).state = TaskSt.READY ∧
        tau ∉ (sleepWalk ticks s l).1) := by
  have hsub : ∀ (l : List Nat) (s : SchedState) (x : Nat),
      x ∈ (sleepWalk ticks s l).1 → x ∈ l := by
    intro l
    induction l with
    | nil => intro s x h; simp [sleepWalk] at h
    | cons t rest ih =>
        intro s x h
        by_cases hc : (s.tasks t).wake_time ≤ ticks
        · simp only [sleepWalk, if_pos hc] at h
          exact List.mem_cons_of_mem _ (ih _ _ h)
        · simp only [sleepWalk, if_neg hc] at h
          rcases List.mem_cons.1 h with he | hm
          · exact he ▸ List.mem_cons_self _ _
          · exact List.mem_cons_of_mem _ (ih _ _ hm)
  intro s
  induction l generalizing s with
  | nil => intro _ _ h; exact absurd h (List.not_mem_nil tau)
  | cons t rest ih =>
      intro hw hle hmem
      by_cases hx : tau = t
      · subst hx
        have hc : (s.tasks tau).wake_time ≤ ticks := by omega
        simp only [sleepWalk, if_pos hc]
        have hready : tau ∈ (scheduler_add_task s tau).ready := by
          simp [scheduler_add_task, updTask]
        have hst : ((scheduler_add_task s tau).tasks tau).state = TaskSt.READY := by
          simp [scheduler_add_task, updTask]
        by_cases hmem2 : tau ∈ rest
        · have hw1 : ((scheduler_add_task s tau).tasks tau).wake_time = w := by
            simp [scheduler_add_task, updTask]
            exact hw
          have := ih (scheduler_add_task s tau) hw1 hle hmem2
          exact ⟨this.1, this.2.1, this.2.2⟩
        · have hstable := sleepWalk_readyStable ticks tau rest
            (scheduler_add_task s tau) hready hst
          refine ⟨hstable.1, hstable.2, ?_⟩
          intro hk
          exact hmem2 (hsub rest (scheduler_add_task s tau) tau hk)
      · have hmem2 : tau ∈ rest := by
          rcases List.mem_cons.1 hmem with he | hm
          · exact absurd he hx
          · exact hm
        by_cases hc : (s.tasks t).wake_time ≤ ticks
        · simp only [sleepWalk, if_pos hc]
          have hw1 : ((scheduler_add_task s t).tasks tau).wake_time = w := by
            simp [scheduler_add_task, updTask, hx]
            exact hw
          exact ih (scheduler_add_task s t) hw1 hle hmem2
        · simp only [sleepWalk, if_neg hc]
          have := ih s hw hle hmem2
          refine ⟨this.1, this.2.1, ?_⟩
          intro hk
          rcases List.mem_cons.1 hk with he | hm
          · exact hx he
          · exact this.2.2 hm

end Sched

namespace Sched

/-- Frame facts for the check phase. -/
theorem check_frame (s : SchedState) :
    (scheduler_check_sleeping_tasks s).current = s.current ∧
      (scheduler_check_sleeping_tasks s).idle = s.idle ∧
      (scheduler_check_sleeping_tasks s).ticks = s.ticks := by
  unfold scheduler_check_sleeping_tasks
  by_cases h : s.sleepq.isEmpty
  · simp [h]
  · have := sleepWalk_frame s.ticks s.sleepq s
    simp only [h, Bool.false_eq_true, if_false]
    exact ⟨this.1, this.2.1, this.2.2.2.1⟩

/-- While `ticks < w`, the check phase leaves a `wake_time = w` sleeper
untouched. -/
theorem check_notWoken (s : SchedState) (tau w : Nat)
    (hw : (s.tasks tau).wake_time = w) (hlt : s.ticks < w) :
    (scheduler_check_sleeping_tasks s).tasks tau = s.tasks tau ∧
      (tau ∉ s.ready → tau ∉ (scheduler_check_sleeping_tasks s).ready) ∧
      (tau ∈ s.sleepq → tau ∈ (scheduler_check_sleeping_tasks s).sleepq) := by
  unfold scheduler_check_sleeping_tasks
  by_cases h : s.sleepq.isEmpty
  · simp [h]
  · have := sleepWalk_notWoken s.ticks w tau s.sleepq s hw hlt
    simp only [h, Bool.false_eq_true, if_false]
    exact ⟨this.1, this.2.1, fun hm => this.2.2 hm⟩

/-- When the tick count has reached `w`, the check phase moves every
sleep-queue occurrence of a `wake_time = w` sleeper to the ready queue
with state `READY`. -/
theorem check_wakes (s : SchedState) (tau w : Nat)
    (hw : (s.tasks tau).wake_time = w) (hle : w ≤ s.ticks) (hmem : tau ∈ s.sleepq) :
    tau ∈ (scheduler_check_sleeping_tasks s).ready ∧
      ((scheduler_check_sleeping_tasks s).tasks tau).state = TaskSt.READY ∧
      tau ∉ (scheduler_check_sleeping_tasks s).sleepq := by
  unfold scheduler_check_sleeping_tasks
  have hne : s.sleepq.isEmpty = false := by
    cases hsq : s.sleepq with
    | nil => rw [hsq] at hmem; exact absurd hmem (List.not_mem_nil tau)
    | cons a l => simp
  have := sleepWalk_wakes s.ticks w tau s.sleepq s hw hle hmem
  simp only [hne, Bool.false_eq_true, if_false]
  exact ⟨this.1, this.2.1, this.2.2⟩

end Sched

namespace Sched

theorem updTask_tasks_ne (s : SchedState) (id tau : Nat) (f : TaskRec → TaskRec)
    (h : tau ≠ id) : (updTask s id f).tasks tau = s.tasks tau := by
  simp [updTask, h]

theorem chargeSlice_frame (s : SchedState) :
    (chargeSlice s).current = s.current ∧ (chargeSlice s).ready = s.ready ∧
      (chargeSlice s).sleepq = s.sleepq ∧ (chargeSlice s).idle = s.idle ∧
      (chargeSlice s).ticks = s.ticks := by
  unfold chargeSlice
  by_cases h : (s.tasks s.current).time_slice > 0 <;> simp [h, updTask]

theorem chargeSlice_tasks_ne (s : SchedState) (tau : Nat) (h : s.current ≠ tau) :
    (chargeSlice s).tasks tau = s.tasks tau := by
  unfold chargeSlice
  by_cases h1 : (s.tasks s.current).time_slice > 0 <;>
    simp [h1, updTask, Ne.symm h]

theorem chargeSlice_current_rec (s : SchedState) :
    ((chargeSlice s).tasks s.current).state = (s.tasks s.current).state ∧
      ((chargeSlice s).tasks s.current).wake_time = (s.tasks s.current).wake_time ∧
      ((s.tasks s.current).time_slice = 0 →
        ((chargeSlice s).tasks s.current).time_slice = 0) := by
  unfold chargeSlice
  by_cases h1 : (s.tasks s.current).time_slice > 0
  · simp [h1, updTask]
    omega
  · simp [h1, updTask]

theorem pick_frame (s : SchedState) :
    (scheduler_pick_next s).2.current = s.current ∧
      (scheduler_pick_next s).2.idle = s.idle ∧
      (scheduler_pick_next s).2.sleepq = s.sleepq ∧
      (scheduler_pick_next s).2.ticks = s.ticks ∧
      (scheduler_pick_next s).2.tasks = s.tasks := by
  unfold scheduler_pick_next
  cases s.ready <;> simp

theorem pick_next_ne (s : SchedState) (tau : Nat) (hnr : tau ∉ s.ready)
    (hidle : tau ≠ s.idle) : (scheduler_pick_next s).1 ≠ tau := by
  unfold scheduler_pick_next
  cases hr : s.ready with
  | nil => simpa using Ne.symm hidle
  | cons hd rest =>
      simp only
      intro he
      exact hnr (hr ▸ he ▸ List.mem_cons_self _ _)

theorem pick_ready_not_mem (s : SchedState) (tau : Nat) (hnr : tau ∉ s.ready) :
    tau ∉ (scheduler_pick_next s).2.ready := by
  unfold scheduler_pick_next
  cases hr : s.ready with
  | nil => simpa using hr ▸ hnr
  | cons hd rest =>
      simp only
      intro he
      exact hnr (hr ▸ List.mem_cons_of_mem _ he)

theorem switchTo_ignores (s1 : SchedState) (old next tau : Nat)
    (hold : old ≠ tau) (hnext : next ≠ tau) (hcur : s1.current ≠ tau)
    (hnr : tau ∉ s1.ready) :
    (switchTo s1 old next).tasks tau = s1.tasks tau ∧
      (switchTo s1 old next).current ≠ tau ∧
      tau ∉ (switchTo s1 old next).ready ∧
      (switchTo s1 old next).sleepq = s1.sleepq ∧
      (switchTo s1 old next).idle = s1.idle ∧
      (switchTo s1 old next).ticks = s1.ticks := by
  unfold switchTo
  by_cases h : next ≠ old
  · rw [if_pos h]
    by_cases h2 : (s1.tasks old).state = TaskSt.RUNNING
    · rw [if_pos h2]
      refine ⟨?_, hnext, ?_, rfl, rfl, rfl⟩
      · simp [scheduler_add_task, updTask, Ne.symm hold, Ne.symm hnext]
      · simp [scheduler_add_task, updTask]
        exact ⟨hnr, Ne.symm hold⟩
    · rw [if_neg h2]
      exact ⟨by simp [updTask, Ne.symm hnext], hnext, hnr, rfl, rfl, rfl⟩
  · rw [if_neg h]
    exact ⟨by simp [updTask, Ne.symm hold], hcur, hnr, rfl, rfl, rfl⟩

theorem switchTo_sleeping_old (s1 : SchedState) (next tau : Nat)
    (hstate : (s1.tasks tau).state = TaskSt.SLEEPING) (hnext : next ≠ tau)
    (hnr : tau ∉ s1.ready) :
    (switchTo s1 tau next).tasks tau = s1.tasks tau ∧
      (switchTo s1 tau next).current = next ∧
      tau ∉ (switchTo s1 tau next).ready ∧
      (switchTo s1 tau next).sleepq = s1.sleepq ∧
      (switchTo s1 tau next).idle = s1.idle ∧
      (switchTo s1 tau next).ticks = s1.ticks := by
  unfold switchTo
  rw [if_pos hnext, if_neg (by rw [hstate]; exact fun h => nomatch h)]
  exact ⟨by simp [updTask, Ne.symm hnext], rfl, hnr, rfl, rfl, rfl⟩

theorem switchTo_ready (s1 : SchedState) (old next tau : Nat)
    (hold : old ≠ tau) (hcur : s1.current ≠ tau)
    (hst : (s1.tasks tau).state = TaskSt.READY)
    (hmem : next = tau ∨ tau ∈ s1.ready) :
    ((switchTo s1 old next).current = tau ∧
        ((switchTo s1 old next).tasks tau).state = TaskSt.RUNNING) ∨
      (tau ∈ (switchTo s1 old next).ready ∧
        ((switchTo s1 old next).tasks tau).state = TaskSt.READY) := by
  unfold switchTo
  by_cases hnt : next = tau
  · subst hnt
    rw [if_pos (Ne.symm hold)]
    left
    refine ⟨rfl, ?_⟩
    by_cases h2 : (s1.tasks old).state = TaskSt.RUNNING <;> simp [h2, updTask]
  · rcases hmem with he | hmem2
    · exact absurd he hnt
    · by_cases h : next ≠ old
      · rw [if_pos h]
        right
        by_cases h2 : (s1.tasks old).state = TaskSt.RUNNING
        · rw [if_pos h2]
          constructor
          · simp [scheduler_add_task, updTask]
            exact Or.inl hmem2
          · simp [scheduler_add_task, updTask, Ne.symm hold, Ne.symm hnt]
            exact hst
        · rw [if_neg h2]
          exact ⟨hmem2, by simpa [updTask, Ne.symm hnt] using hst⟩
      · rw [if_neg h]
        right
        exact ⟨hmem2, by simpa [updTask, Ne.symm hold] using hst⟩

end Sched

namespace Sched

/-- The slice/switch logic never touches, schedules, or dequeues a task
that is neither current, nor ready, nor idle. -/
theorem tick_core_ignores (c : SchedState) (tau : Nat)
    (hcur : c.current ≠ tau) (hnr : tau ∉ c.ready) (hidle : tau ≠ c.idle) :
    (scheduler_tick_core c).tasks tau = c.tasks tau ∧
      (scheduler_tick_core c).current ≠ tau ∧
      tau ∉ (scheduler_tick_core c).ready ∧
      (scheduler_tick_core c).sleepq = c.sleepq ∧
      (scheduler_tick_core c).idle = c.idle ∧
      (scheduler_tick_core c).ticks = c.ticks := by
  obtain ⟨hdc, hdr, hds, hdi, hdt⟩ := chargeSlice_frame c
  have hdtau := chargeSlice_tasks_ne c tau hcur
  unfold scheduler_tick_core
  by_cases h : ((chargeSlice c).tasks (chargeSlice c).current).time_slice = 0
  · rw [if_pos h]
    obtain ⟨hpc, hpi, hps, hpt, hptasks⟩ := pick_frame (chargeSlice c)
    have hnext : (scheduler_pick_next (chargeSlice c)).1 ≠ tau :=
      pick_next_ne (chargeSlice c) tau (hdr ▸ hnr) (hdi ▸ hidle)
    have hsw := switchTo_ignores (scheduler_pick_next (chargeSlice c)).2
      (chargeSlice c).current (scheduler_pick_next (chargeSlice c)).1 tau
      (hdc ▸ hcur) hnext (hpc ▸ hdc ▸ hcur)
      (pick_ready_not_mem (chargeSlice c) tau (hdr ▸ hnr))
    refine ⟨?_, hsw.2.1, hsw.2.2.1, ?_, ?_, ?_⟩
    · rw [hsw.1, hptasks, hdtau]
    · rw [hsw.2.2.2.1, hps, hds]
    · rw [hsw.2.2.2.2.1, hpi, hdi]
    · rw [hsw.2.2.2.2.2, hpt, hdt]
  · rw [if_neg h]
    exact ⟨hdtau, hdc ▸ hcur, hdr ▸ hnr, hds, hdi, hdt⟩

/-- When the current task has just put itself to sleep (state `SLEEPING`,
slice zero, off both queues), the slice/switch logic switches away from
it without requeueing it. -/
theorem tick_core_sleeping_current (c : SchedState) (tau : Nat)
    (hcur : c.current = tau) (hslice : (c.tasks tau).time_slice = 0)
    (hst : (c.tasks tau).state = TaskSt.SLEEPING)
    (hnr : tau ∉ c.ready) (hidle : tau ≠ c.idle) :
    ((scheduler_tick_core c).tasks tau).state = TaskSt.SLEEPING ∧
      ((scheduler_tick_core c).tasks tau).wake_time = (c.tasks tau).wake_time ∧
      (scheduler_tick_core c).current ≠ tau ∧
      tau ∉ (scheduler_tick_core c).ready ∧
      (scheduler_tick_core c).sleepq = c.sleepq ∧
      (scheduler_tick_core c).idle = c.idle ∧
      (scheduler_tick_core c).ticks = c.ticks := by
  obtain ⟨hdc, hdr, hds, hdi, hdt⟩ := chargeSlice_frame c
  obtain ⟨hcs, hcw, hcz⟩ := chargeSlice_current_rec c
  rw [hcur] at hcs hcw hcz
  unfold scheduler_tick_core
  have h : ((chargeSlice c).tasks (chargeSlice c).current).time_slice = 0 := by
    rw [hdc, hcur]; exact hcz hslice
  rw [if_pos h]
  obtain ⟨hpc, hpi, hps, hpt, hptasks⟩ := pick_frame (chargeSlice c)
  have hnext : (scheduler_pick_next (chargeSlice c)).1 ≠ tau :=
    pick_next_ne (chargeSlice c) tau (hdr ▸ hnr) (hdi ▸ hidle)
  have hold : (chargeSlice c).current = tau := hdc ▸ hcur
  rw [hold]
  have hsw := switchTo_sleeping_old (scheduler_pick_next (chargeSlice c)).2
    (scheduler_pick_next (chargeSlice c)).1 tau
    (by rw [hptasks, hcs, hst]) hnext
    (pick_ready_not_mem (chargeSlice c) tau (hdr ▸ hnr))
  refine ⟨?_, ?_, ?_, hsw.2.2.1, ?_, ?_, ?_⟩
  · rw [hsw.1, hptasks, hcs, hst]
  · rw [hsw.1, hptasks, hcw]
  · rw [hsw.2.1]; exact hnext
  · rw [hsw.2.2.2.1, hps, hds]
  · rw [hsw.2.2.2.2.1, hpi, hdi]
  · rw [hsw.2.2.2.2.2, hpt, hdt]

/-- A `READY` task on the ready queue either gets the CPU during the
slice/switch logic or stays `READY` on the ready queue. -/
theorem tick_core_after_wake (c : SchedState) (tau : Nat)
    (hcur : c.current ≠ tau) (hready : tau ∈ c.ready)
    (hst : (c.tasks tau).state = TaskSt.READY) :
    ((scheduler_tick_core c).current = tau ∧
        ((scheduler_tick_core c).tasks tau).state = TaskSt.RUNNING) ∨
      (tau ∈ (scheduler_tick_core c).ready ∧
        ((scheduler_tick_core c).tasks tau).state = TaskSt.READY) := by
  obtain ⟨hdc, hdr, hds, hdi, hdt⟩ := chargeSlice_frame c
  have hdtau := chargeSlice_tasks_ne c tau hcur
  unfold scheduler_tick_core
  by_cases h : ((chargeSlice c).tasks (chargeSlice c).current).time_slice = 0
  · rw [if_pos h]
    obtain ⟨hpc, hpi, hps, hpt, hptasks⟩ := pick_frame (chargeSlice c)
    have hmem : (scheduler_pick_next (chargeSlice c)).1 = tau ∨
        tau ∈ (scheduler_pick_next (chargeSlice c)).2.ready := by
      unfold scheduler_pick_next
      cases hr : (chargeSlice c).ready with
      | nil =>
          rw [hdr] at hr
          rw [hr] at hready
          exact absurd hready (List.not_mem_nil tau)
      | cons hd rest =>
          by_cases hh : hd = tau
          · exact Or.inl (by simp [hh])
          · right
            simp only
            have : tau ∈ hd :: rest := hr ▸ hdr ▸ hready
            rcases List.mem_cons.1 this with he | hm
            · exact absurd he.symm hh
            · exact hm
    exact switchTo_ready (scheduler_pick_next (chargeSlice c)).2
      (chargeSlice c).current (scheduler_pick_next (chargeSlice c)).1 tau
      (hdc ▸ hcur) (hpc ▸ hdc ▸ hcur)
      (by rw [hptasks, hdtau]; exact hst) hmem
  · rw [if_neg h]
    right
    exact ⟨hdr ▸ hready, by rw [hdtau]; exact hst⟩

/-- `scheduler_tick` and `pit_handler` tick-counter laws. -/
theorem tick_core_ticks (c : SchedState) :
    (scheduler_tick_core c).ticks = c.ticks := by
  obtain ⟨hdc, hdr, hds, hdi, hdt⟩ := chargeSlice_frame c
  unfold scheduler_tick_core
  by_cases h : ((chargeSlice c).tasks (chargeSlice c).current).time_slice = 0
  · rw [if_pos h]
    obtain ⟨hpc, hpi, hps, hpt, hptasks⟩ := pick_frame (chargeSlice c)
    have : ∀ (s1 : SchedState) (old next : Nat), (switchTo s1 old next).ticks = s1.ticks := by
      intro s1 old next
      unfold switchTo
      by_cases hx : next ≠ old
      · rw [if_pos hx]
        by_cases h2 : (s1.tasks old).state = TaskSt.RUNNING <;>
          simp [h2, scheduler_add_task, updTask]
      · rw [if_neg hx]; rfl
    rw [this, hpt, hdt]
  · rw [if_neg h]; exact hdt

theorem scheduler_tick_ticks (s : SchedState) :
    (scheduler_tick s).ticks = s.ticks := by
  unfold scheduler_tick
  rw [tick_core_ticks]
  exact (check_frame s).2.2

end Sched

namespace Sched

/-- One PIT interrupt at a tick count still below the wake time leaves a
sleeping task asleep (and advances the counter by one). -/
theorem pit_preserves_asleep (s : SchedState) (tau w : Nat)
    (ha : Asleep s tau w) (hlt : s.ticks + 1 < w) :
    Asleep (pit_handler s) tau w ∧ (pit_handler s).ticks = s.ticks + 1 := by
  obtain ⟨hst, hw, hsq, hnr, hcur, hidle⟩ := ha
  unfold pit_handler scheduler_tick
  obtain ⟨hcc, hci, hct⟩ := check_frame { s with ticks := s.ticks + 1 }
  obtain ⟨hctau, hcr, hcs⟩ :=
    check_notWoken { s with ticks := s.ticks + 1 } tau w hw hlt
  have hco := tick_core_ignores (scheduler_check_sleeping_tasks { s with ticks := s.ticks + 1 })
    tau (by rw [hcc]; exact hcur) (hcr hnr) (by rw [hci]; exact hidle)
  refine ⟨⟨?_, ?_, ?_, hco.2.2.1, hco.2.1, ?_⟩, ?_⟩
  · rw [hco.1, hctau]; exact hst
  · rw [hco.1, hctau]; exact hw
  · rw [hco.2.2.2.1]; exact hcs hsq
  · rw [hco.2.2.2.2.1, hci]; exact hidle
  · rw [hco.2.2.2.2.2, hct]

/-- Running `k` PIT ticks with the wake time still in the future keeps the
task asleep; the counter advances by exactly one per tick. -/
theorem runTicks_asleep (tau w : Nat) :
    ∀ (k : Nat) (s : SchedState), Asleep s tau w → s.ticks + k < w →
      Asleep (runTicks k s) tau w ∧ (runTicks k s).ticks = s.ticks + k := by
  intro k
  induction k with
  | zero => intro s ha _; exact ⟨ha, rfl⟩
  | succ k ih =>
      intro s ha hlt
      have hp := pit_preserves_asleep s tau w ha (by omega)
      have := ih (pit_handler s) hp.1 (by omega)
      rw [runTicks]
      exact ⟨this.1, by rw [this.2, hp.2]; omega⟩

/-- `task_sleep` (for `n ≥ 1`, a non-idle current task off both queues)
puts the caller to sleep with `wake_time = ticks + n` and switches away,
without advancing the tick counter. -/
theorem task_sleep_asleep (s : SchedState) (n : Nat) (hn : 1 ≤ n)
    (hidle : s.current ≠ s.idle) (hready : s.current ∉ s.ready) :
    Asleep (task_sleep s n) s.current (s.ticks + n) ∧
      (task_sleep s n).ticks = s.ticks ∧
      (task_sleep s n).idle = s.idle := by
  unfold task_sleep
  rw [if_neg (by omega), if_neg hidle]
  set tau := s.current with htau
  set w := s.ticks + n with hwdef
  set s2 : SchedState :=
    { updTask s tau (fun t =>
        { t with wake_time := w, state := TaskSt.SLEEPING, time_slice := 0 }) with
      sleepq := tau :: s.sleepq } with hs2
  have hs2tau : s2.tasks tau =
      { state := TaskSt.SLEEPING, time_slice := 0,
        total_runtime := (s.tasks tau).total_runtime, wake_time := w } := by
    simp [hs2, updTask]
  have hs2cur : s2.current = tau := rfl
  have hs2idle : s2.idle = s.idle := rfl
  have hs2ready : s2.ready = s.ready := rfl
  have hs2ticks : s2.ticks = s.ticks := rfl
  show Asleep (scheduler_tick s2) tau w ∧ (scheduler_tick s2).ticks = s.ticks ∧
    (scheduler_tick s2).idle = s.idle
  unfold scheduler_tick
  obtain ⟨hcc, hci, hct⟩ := check_frame s2
  obtain ⟨hctau, hcr, hcs⟩ := check_notWoken s2 tau w (by rw [hs2tau]) (by omega)
  set c := scheduler_check_sleeping_tasks s2 with hc
  have hco := tick_core_sleeping_current c tau (by rw [hcc, hs2cur])
    (by rw [hctau, hs2tau]) (by rw [hctau, hs2tau])
    (hcr (hs2ready ▸ hready)) (by rw [hci, hs2idle]; exact hidle)
  refine ⟨⟨hco.1, ?_, ?_, hco.2.2.2.1, hco.2.2.1, ?_⟩, ?_, ?_⟩
  · rw [hco.2.1, hctau, hs2tau]
  · rw [hco.2.2.2.2.1]
    refine hcs ?_
    rw [hs2]
    exact List.mem_cons_self _ _
  · rw [hco.2.2.2.2.2.1, hci, hs2idle]; exact hidle
  · rw [tick_core_ticks, hct, hs2ticks]
  · rw [hco.2.2.2.2.2.1, hci, hs2idle]

end Sched

/-- C5: a non-idle current task calling `task_sleep n` (`n ≥ 1`) at PIT
tick `t = ticks` is set `SLEEPING` with `wake_time = t + n`, placed on the
sleep queue, and the CPU is handed to another task; during the following
ticks it stays asleep and is never the current task while the counter is
below `t + n`; at the first `scheduler_tick` whose tick count reaches
`t + n`, the `scheduler_check_sleeping_tasks` phase moves it to the ready
queue with state `READY`, after which that same tick either leaves it
`READY` on the ready queue or immediately schedules it (`RUNNING`). -/
theorem C5_task_sleep_not_scheduled_until_wake (s : Sched.SchedState) (n : Nat)
    (hn : 1 ≤ n) (hidle : s.current ≠ s.idle) (hready : s.current ∉ s.ready) :
    ((Sched.task_sleep s n).ticks = s.ticks ∧
      ((Sched.task_sleep s n).tasks s.current).state = Sched.TaskSt.SLEEPING ∧
      ((Sched.task_sleep s n).tasks s.current).wake_time = s.ticks + n ∧
      s.current ∈ (Sched.task_sleep s n).sleepq ∧
      (Sched.task_sleep s n).current ≠ s.current) ∧
    (∀ k, k < n →
      (Sched.runTicks k (Sched.task_sleep s n)).ticks = s.ticks + k ∧
      Sched.Asleep (Sched.runTicks k (Sched.task_sleep s n)) s.current (s.ticks + n) ∧
      (Sched.runTicks k (Sched.task_sleep s n)).current ≠ s.current) ∧
    (s.current ∈ (Sched.scheduler_check_sleeping_tasks
        { Sched.runTicks (n - 1) (Sched.task_sleep s n) with
          ticks := (Sched.runTicks (n - 1) (Sched.task_sleep s n)).ticks + 1 }).ready ∧
      ((Sched.scheduler_check_sleeping_tasks
        { Sched.runTicks (n - 1) (Sched.task_sleep s n) with
          ticks := (Sched.runTicks (n - 1) (Sched.task_sleep s n)).ticks + 1 }).tasks
          s.current).state = Sched.TaskSt.READY ∧
      s.current ∉ (Sched.scheduler_check_sleeping_tasks
        { Sched.runTicks (n - 1) (Sched.task_sleep s n) with
          ticks := (Sched.runTicks (n - 1) (Sched.task_sleep s n)).ticks + 1 }).sleepq) ∧
    (((Sched.pit_handler (Sched.runTicks (n - 1) (Sched.task_sleep s n))).current =
          s.current ∧
        ((Sched.pit_handler (Sched.runTicks (n - 1) (Sched.task_sleep s n))).tasks
            s.current).state = Sched.TaskSt.RUNNING) ∨
      (s.current ∈ (Sched.pit_handler (Sched.runTicks (n - 1) (Sched.task_sleep s n))).ready ∧
        ((Sched.pit_handler (Sched.runTicks (n - 1) (Sched.task_sleep s n))).tasks
            s.current).state = Sched.TaskSt.READY)) := by
  obtain ⟨ha1, hticks1, hidle1⟩ := Sched.task_sleep_asleep s n hn hidle hready
  have hrun : ∀ k, k < n →
      Sched.Asleep (Sched.runTicks k (Sched.task_sleep s n)) s.current (s.ticks + n) ∧
      (Sched.runTicks k (Sched.task_sleep s n)).ticks = s.ticks + k := by
    intro k hk
    have := Sched.runTicks_asleep s.current (s.ticks + n) k (Sched.task_sleep s n) ha1
      (by rw [hticks1]; omega)
    exact ⟨this.1, by rw [this.2, hticks1]⟩
  obtain ⟨haK, hticksK⟩ := hrun (n - 1) (by omega)
  obtain ⟨hstK, hwK, hsqK, hnrK, hcurK, hniK⟩ := haK
  have hwake := Sched.check_wakes
    { Sched.runTicks (n - 1) (Sched.task_sleep s n) with
      ticks := (Sched.runTicks (n - 1) (Sched.task_sleep s n)).ticks + 1 }
    s.current (s.ticks + n) hwK
    (by show s.ticks + n ≤ (Sched.runTicks (n - 1) (Sched.task_sleep s n)).ticks + 1
        rw [hticksK]; omega)
    hsqK
  obtain ⟨hcc, hci, hct⟩ := Sched.check_frame
    { Sched.runTicks (n - 1) (Sched.task_sleep s n) with
      ticks := (Sched.runTicks (n - 1) (Sched.task_sleep s n)).ticks + 1 }
  have hcore := Sched.tick_core_after_wake
    (Sched.scheduler_check_sleeping_tasks
      { Sched.runTicks (n - 1) (Sched.task_sleep s n) with
        ticks := (Sched.runTicks (n - 1) (Sched.task_sleep s n)).ticks + 1 })
    s.current (by rw [hcc]; exact hcurK) hwake.1 hwake.2.1
  exact ⟨⟨hticks1, ha1.1, ha1.2.1, ha1.2.2.1, ha1.2.2.2.2.1⟩,
    fun k hk => ⟨(hrun k hk).2, (hrun k hk).1, (hrun k hk).1.2.2.2.2.1⟩,
    hwake, hcore⟩

/-- A concrete scenario for the C5 witness: task 1 is running (slice 5),
task 2 is ready, task 0 is the idle task, the PIT reads tick 100. -/
def sleepDemo : Sched.SchedState :=
  { tasks := fun i =>
      if i = 1 then ⟨Sched.TaskSt.RUNNING, 5, 0, 0⟩
      else if i = 2 then ⟨Sched.TaskSt.READY, 10, 0, 0⟩
      else ⟨Sched.TaskSt.READY, 10, 0, 0⟩,
    current := 1, idle := 0, ready := [2], sleepq := [], ticks := 100 }

/-- Witness for C5: task 1 sleeping for 3 ticks at tick 100 is SLEEPING
with wake time 103, is not current after 2 further ticks, and on the tick
reaching 103 ends up ready or running. -/
theorem C5_task_sleep_not_scheduled_until_wake_witness :
    (Sched.task_sleep sleepDemo 3).ticks = 100 ∧
      ((Sched.task_sleep sleepDemo 3).tasks 1).state = Sched.TaskSt.SLEEPING ∧
      ((Sched.task_sleep sleepDemo 3).tasks 1).wake_time = 103 ∧
      (Sched.runTicks 2 (Sched.task_sleep sleepDemo 3)).current ≠ 1 ∧
      (((Sched.pit_handler (Sched.runTicks 2 (Sched.task_sleep sleepDemo 3))).current = 1 ∧
          ((Sched.pit_handler (Sched.runTicks 2 (Sched.task_sleep sleepDemo 3))).tasks
              1).state = Sched.TaskSt.RUNNING) ∨
        (1 ∈ (Sched.pit_handler (Sched.runTicks 2 (Sched.task_sleep sleepDemo 3))).ready ∧
          ((Sched.pit_handler (Sched.runTicks 2 (Sched.task_sleep sleepDemo 3))).tasks
              1).state = Sched.TaskSt.READY)) := by
  have h := C5_task_sleep_not_scheduled_until_wake sleepDemo 3 (by decide) (by decide)
    (by decide)
  exact ⟨h.1.1, h.1.2.1, h.1.2.2.1, (h.2.1 2 (by decide)).2.2, h.2.2.2⟩

namespace Vmm

/-! Virtual memory manager, from `src/mm/vmm.c` and `src/mm/memory_layout.h`.

The 4-level page-table memory is modelled as `mem : Nat → Nat → Nat`,
giving for each physical table base address the 64-bit entry at each
9-bit index (the C code reaches a table through the physical direct map;
`get_table` is the identity here).  `pmm_alloc_page` is the bitmap
allocator of the `Pmm` namespace, carried inside the state. -/

def PAGE_PRESENT : Nat := 1

def PAGE_WRITE : Nat := 2

def PAGE_HUGE : Nat := 128

/-- `(addr >> 39) & 0x1FF`. -/
def PML4_INDEX (addr : Nat) : Nat := (addr >>> 39) &&& 0x1FF

def PDPT_INDEX (addr : Nat) : Nat := (addr >>> 30) &&& 0x1FF

def PD_INDEX (addr : Nat) : Nat := (addr >>> 21) &&& 0x1FF

def PT_INDEX (addr : Nat) : Nat := (addr >>> 12) &&& 0x1FF

/-- `pte_get_address`: `pte & 0x000FFFFFFFFFF000`. -/
def pte_get_address (pte : Nat) : Nat := pte &&& 0x000FFFFFFFFFF000

structure VmmState where
  current_pml4_phys : Nat
  mem : Nat → Nat → Nat
  pmm : Pmm.PmmState

/-- One 64-bit store through the direct map: `table[idx] = v`. -/
def memWriteEntry (m : Nat → Nat → Nat) (tbl idx v : Nat) : Nat → Nat → Nat :=
  fun t => if t = tbl then (fun i => if i = idx then v else m t i) else m t

/-- `memset(table, 0, PAGE_SIZE)` on a freshly allocated table. -/
def memZeroTable (m : Nat → Nat → Nat) (tbl : Nat) : Nat → Nat → Nat :=
  fun t => if t = tbl then (fun _ => 0) else m t

/-- One get-or-create level of `vmm_map_page` (the three identical blocks
at `vmm.c:46-86`): if the entry at `tbl[idx]` is present, descend into
`pte_get_address` of it; otherwise allocate a fresh page from the PMM
(`none` = `E_NOMEM` with the state so far), zero it, and link it with
`PAGE_PRESENT | PAGE_WRITE`. -/
def getOrCreate (s : VmmState) (tbl idx : Nat) : Option Nat × VmmState :=
  let entry := s.mem tbl idx
  if entry &&& PAGE_PRESENT ≠ 0 then
    (some (pte_get_address entry), s)
  else
    match Pmm.pmm_alloc_page s.pmm with
    | (none, _) => (none, s)
    | (some t, pmm1) =>
        let m1 := memZeroTable s.mem t
        let m2 := memWriteEntry m1 tbl idx ((t ||| PAGE_PRESENT) ||| PAGE_WRITE)
        (some t, { s with mem := m2, pmm := pmm1 })

/-- `vmm_map_page` (`vmm.c:34-95`).  The `invlpg` TLB flush has no
software-visible effect in this model. -/
def vmm_map_page (s : VmmState) (virt_addr phys_addr flags : Nat) : KErr × VmmState :=
  if ¬ (Pmm.IS_PAGE_ALIGNED virt_addr = true) ∨ ¬ (Pmm.IS_PAGE_ALIGNED phys_addr = true) then
    (KErr.E_INVALID, s)
  else
    match getOrCreate s s.current_pml4_phys (PML4_INDEX virt_addr) with
    | (none, s1) => (KErr.E_NOMEM, s1)
    | (some pdpt, s1) =>
        match getOrCreate s1 pdpt (PDPT_INDEX virt_addr) with
        | (none, s2) => (KErr.E_NOMEM, s2)
        | (some pd, s2) =>
            match getOrCreate s2 pd (PD_INDEX virt_addr) with
            | (none, s3) => (KErr.E_NOMEM, s3)
            | (some pt, s3) =>
                (KErr.E_OK,
                  { s3 with
                    mem := memWriteEntry s3.mem pt (PT_INDEX virt_addr)
                      (phys_addr ||| flags) })

/-- `vmm_unmap_page` (`vmm.c:97-123`). -/
def vmm_unmap_page (s : VmmState) (virt_addr : Nat) : KErr × VmmState :=
  if ¬ (Pmm.IS_PAGE_ALIGNED virt_addr = true) then (KErr.E_INVALID, s)
  else
    let pml4e := s.mem s.current_pml4_phys (PML4_INDEX virt_addr)
    if pml4e &&& PAGE_PRESENT = 0 then (KErr.E_NOTFOUND, s)
    else
      let pdpt := pte_get_address pml4e
      let pdpte := s.mem pdpt (PDPT_INDEX virt_addr)
      if pdpte &&& PAGE_PRESENT = 0 then (KErr.E_NOTFOUND, s)
      else
        let pd := pte_get_address pdpte
        let pde := s.mem pd (PD_INDEX virt_addr)
        if pde &&& PAGE_PRESENT = 0 then (KErr.E_NOTFOUND, s)
        else
          let pt := pte_get_address pde
          let pte := s.mem pt (PT_INDEX virt_addr)
          if pte &&& PAGE_PRESENT = 0 then (KErr.E_NOTFOUND, s)
          else (KErr.E_OK, { s with mem := memWriteEntry s.mem pt (PT_INDEX virt_addr) 0 })

/-- `vmm_get_physical` (`vmm.c:125-153`). -/
def vmm_get_physical (s : VmmState) (virt_addr : Nat) : Nat :=
  let pml4e := s.mem s.current_pml4_phys (PML4_INDEX virt_addr)
  if pml4e &&& PAGE_PRESENT = 0 then 0
  else
    let pdpt := pte_get_address pml4e
    let pdpte := s.mem pdpt (PDPT_INDEX virt_addr)
    if pdpte &&& PAGE_PRESENT = 0 then 0
    else
      let pd := pte_get_address pdpte
      let pde := s.mem pd (PD_INDEX virt_addr)
      if pde &&& PAGE_PRESENT = 0 then 0
      else if pde &&& PAGE_HUGE ≠ 0 then
        pte_get_address pde + (virt_addr &&& 0x1FFFFF)
      else
        let pt := pte_get_address pde
        let pte := s.mem pt (PT_INDEX virt_addr)
        if pte &&& PAGE_PRESENT = 0 then 0
        else pte_get_address pte + (virt_addr &&& 0xFFF)

/-- A clean page-table state: `CR3` points at an (all-zero) PML4 at
`0x1000` and the PMM is in its post-`pmm_init` state, as captured by
`vmm_init`. -/
def vmmDemo : VmmState :=
  { current_pml4_phys := 0x1000, mem := fun _ _ => 0, pmm := Pmm.pmmInit }

end Vmm

namespace Vmm

theorem pte_get_address_or (p F : Nat) (hp : p % 4096 = 0) (hp52 : p < 2 ^ 52)
    (hF : ∀ i, 12 ≤ i → i < 52 → F.testBit i = false) :
    pte_get_address (p ||| F) = p := by
  unfold pte_get_address
  apply Nat.eq_of_testBit_eq
  intro i
  have hmask : (0x000FFFFFFFFFF000 : Nat) = 2 ^ 12 * (2 ^ 40 - 1) := by norm_num
  rw [hmask, Nat.testBit_and, Nat.testBit_or, Nat.testBit_mul_pow_two,
    Nat.testBit_two_pow_sub_one]
  obtain ⟨q, hq⟩ := Nat.dvd_of_mod_eq_zero hp
  by_cases h1 : i < 12
  · have hpbit : p.testBit i = false := by
      rw [hq, show (4096 : Nat) = 2 ^ 12 from by norm_num, Nat.testBit_mul_pow_two]
      simp [Nat.not_le.2 h1]
    simp [hpbit, Nat.not_le.2 h1]
  · by_cases h2 : i < 52
    · have hFbit : F.testBit i = false := hF i (by omega) h2
      have h3 : i - 12 < 40 := by omega
      simp [hFbit, h3, Nat.le_of_not_lt h1]
    · have hpbit : p.testBit i = false :=
        Nat.testBit_lt_two_pow
          (lt_of_lt_of_le hp52 (Nat.pow_le_pow_right (by norm_num) (by omega)))
      have h3 : ¬ (i - 12 < 40) := by omega
      simp [hpbit, h3]

theorem or_present (p F : Nat) (hF1 : F % 2 = 1) : (p ||| F) &&& PAGE_PRESENT ≠ 0 := by
  have h1 : (p ||| F) % 2 = 1 := Nat.or_mod_two_eq_one.2 (Or.inr hF1)
  unfold PAGE_PRESENT
  rw [Nat.and_one_is_mod]
  omega

theorem and_fff_eq_zero (v : Nat) (hv : v % 4096 = 0) : v &&& 0xFFF = 0 := by
  have h1 : (0xFFF : Nat) = 2 ^ 12 - 1 := by norm_num
  rw [h1, Nat.and_pow_two_sub_one_eq_mod]
  simpa using hv

end Vmm

/-- Counterexample for C3 as stated: on a clean page-table state, mapping
`v = 0` to `p = 4096` with the flag set `F = {PAGE_WRITE}` (page-aligned
everything, but no `PAGE_PRESENT`) succeeds with `E_OK` - `vmm_map_page`
stores `phys_addr | flags` verbatim - yet `vmm_get_physical` then returns
0, not `p`, because the leaf entry's present bit is clear. -/
theorem C3_counterexample_missing_present :
    (Vmm.vmm_map_page Vmm.vmmDemo 0 4096 Vmm.PAGE_WRITE).1 = KErr.E_OK ∧
      Vmm.vmm_get_physical (Vmm.vmm_map_page Vmm.vmmDemo 0 4096 Vmm.PAGE_WRITE).2 0 = 0 ∧
      (0 : Nat) ≠ 4096 := by
  refine ⟨by decide, by decide, by decide⟩

namespace Vmm

theorem aligned_of_mod (x : Nat) (hx : x % 4096 = 0) : Pmm.IS_PAGE_ALIGNED x = true := by
  simp [Pmm.IS_PAGE_ALIGNED, Pmm.PAGE_SIZE, hx]

/-- The state produced by `vmm_map_page` from the clean state `vmmDemo`:
three fresh tables at `0x400000`, `0x401000`, `0x402000` (the first three
PMM pages), each zeroed and linked with `PRESENT|WRITE`, and the leaf
entry `phys | flags`. -/
def cleanMapResult (v p F : Nat) : VmmState :=
  { current_pml4_phys := 0x1000,
    mem :=
      memWriteEntry
        (memWriteEntry
          (memZeroTable
            (memWriteEntry
              (memZeroTable
                (memWriteEntry
                  (memZeroTable (fun _ _ => 0) 0x400000)
                  0x1000 (PML4_INDEX v) ((0x400000 ||| 1) ||| 2))
                0x401000)
              0x400000 (PDPT_INDEX v) ((0x401000 ||| 1) ||| 2))
            0x402000)
          0x401000 (PD_INDEX v) ((0x402000 ||| 1) ||| 2))
        0x402000 (PT_INDEX v) (p ||| F),
    pmm :=
      (Pmm.pmm_alloc_page
        (Pmm.pmm_alloc_page (Pmm.pmm_alloc_page Pmm.pmmInit).2).2).2 }

theorem vmm_map_page_clean_eq (v p F : Nat) (hv : v % 4096 = 0) (hp : p % 4096 = 0) :
    vmm_map_page vmmDemo v p F = (KErr.E_OK, cleanMapResult v p F) := by
  unfold vmm_map_page getOrCreate
  rw [if_neg (by simp [aligned_of_mod v hv, aligned_of_mod p hp])]
  dsimp only [vmmDemo]
  rw [if_neg (by simp [PAGE_PRESENT])]
  rcases hA1 : Pmm.pmm_alloc_page Pmm.pmmInit with ⟨o1, P1⟩
  have hP1 : P1 = (Pmm.pmm_alloc_page Pmm.pmmInit).2 := (congrArg Prod.snd hA1).symm
  have ho1 : o1 = some 0x400000 := by
    have h := congrArg Prod.fst hA1
    rw [show (Pmm.pmm_alloc_page Pmm.pmmInit).1 = some 0x400000 from by decide] at h
    exact h.symm
  subst ho1
  dsimp only
  rw [if_neg (by simp [memWriteEntry, memZeroTable, PAGE_PRESENT])]
  rcases hA2 : Pmm.pmm_alloc_page P1 with ⟨o2, P2⟩
  have hP2 : P2 = (Pmm.pmm_alloc_page (Pmm.pmm_alloc_page Pmm.pmmInit).2).2 := by
    have h := (congrArg Prod.snd hA2).symm
    rw [hP1] at h
    exact h
  have ho2 : o2 = some 0x401000 := by
    have h := congrArg Prod.fst hA2
    rw [hP1,
      show (Pmm.pmm_alloc_page (Pmm.pmm_alloc_page Pmm.pmmInit).2).1 = some 0x401000 from
        by decide] at h
    exact h.symm
  subst ho2
  dsimp only
  rw [if_neg (by simp [memWriteEntry, memZeroTable, PAGE_PRESENT])]
  rcases hA3 : Pmm.pmm_alloc_page P2 with ⟨o3, P3⟩
  have hP3 : P3 =
      (Pmm.pmm_alloc_page (Pmm.pmm_alloc_page (Pmm.pmm_alloc_page Pmm.pmmInit).2).2).2 := by
    have h := (congrArg Prod.snd hA3).symm
    rw [hP2] at h
    exact h
  have ho3 : o3 = some 0x402000 := by
    have h := congrArg Prod.fst hA3
    rw [hP2,
      show (Pmm.pmm_alloc_page
        (Pmm.pmm_alloc_page (Pmm.pmm_alloc_page Pmm.pmmInit).2).2).1 = some 0x402000 from
        by decide] at h
    exact h.symm
  subst ho3
  dsimp only
  rw [hP3]
  rfl

theorem cleanMapResult_get (v p F : Nat) (hv : v % 4096 = 0)
    (hkey : pte_get_address (p ||| F) = p) (hpres : ¬ ((p ||| F) &&& PAGE_PRESENT = 0)) :
    vmm_get_physical (cleanMapResult v p F) v = p := by
  have hor1 : (((0x400000 : Nat) ||| 1) ||| 2) = 0x400003 := by decide
  have hor2 : (((0x401000 : Nat) ||| 1) ||| 2) = 0x401003 := by decide
  have hor3 : (((0x402000 : Nat) ||| 1) ||| 2) = 0x402003 := by decide
  have hpp1 : ¬ ((0x400003 : Nat) &&& PAGE_PRESENT = 0) := by decide
  have hpp2 : ¬ ((0x401003 : Nat) &&& PAGE_PRESENT = 0) := by decide
  have hpp3 : ¬ ((0x402003 : Nat) &&& PAGE_PRESENT = 0) := by decide
  have hga1 : pte_get_address 0x400003 = 0x400000 := by decide
  have hga2 : pte_get_address 0x401003 = 0x401000 := by decide
  have hga3 : pte_get_address 0x402003 = 0x402000 := by decide
  have hhug : ((0x402003 : Nat) &&& PAGE_HUGE = 0) := by decide
  have hoff : v &&& 0xFFF = 0 := and_fff_eq_zero v hv
  unfold vmm_get_physical cleanMapResult
  simp only [memWriteEntry, memZeroTable, hor1, hor2, hor3]
  norm_num [hpp1, hpp2, hpp3, hga1, hga2, hga3, hhug, hpres, hoff, hkey]

theorem cleanMapResult_unmap (v p F : Nat) (hv : v % 4096 = 0)
    (hpres : ¬ ((p ||| F) &&& PAGE_PRESENT = 0)) :
    vmm_unmap_page (cleanMapResult v p F) v =
      (KErr.E_OK,
        { cleanMapResult v p F with
          mem := memWriteEntry (cleanMapResult v p F).mem 0x402000 (PT_INDEX v) 0 }) := by
  have hor1 : (((0x400000 : Nat) ||| 1) ||| 2) = 0x400003 := by decide
  have hor2 : (((0x401000 : Nat) ||| 1) ||| 2) = 0x401003 := by decide
  have hor3 : (((0x402000 : Nat) ||| 1) ||| 2) = 0x402003 := by decide
  have hpp1 : ¬ ((0x400003 : Nat) &&& PAGE_PRESENT = 0) := by decide
  have hpp2 : ¬ ((0x401003 : Nat) &&& PAGE_PRESENT = 0) := by decide
  have hpp3 : ¬ ((0x402003 : Nat) &&& PAGE_PRESENT = 0) := by decide
  have hga1 : pte_get_address 0x400003 = 0x400000 := by decide
  have hga2 : pte_get_address 0x401003 = 0x401000 := by decide
  have hga3 : pte_get_address 0x402003 = 0x402000 := by decide
  unfold vmm_unmap_page
  rw [if_neg (by simp [aligned_of_mod v hv])]
  conv_lhs => rw [cleanMapResult]
  simp only [memWriteEntry, memZeroTable, hor1, hor2, hor3]
  norm_num [hpp1, hpp2, hpp3, hga1, hga2, hga3, hpres]
  simp only [cleanMapResult, hor1, hor2, hor3]
  exact ⟨trivial, trivial, trivial⟩

theorem cleanMapResult_unmap_get (v p F : Nat) :
    vmm_get_physical
      ({ cleanMapResult v p F with
        mem := memWriteEntry (cleanMapResult v p F).mem 0x402000 (PT_INDEX v) 0 }) v = 0 := by
  have hor1 : (((0x400000 : Nat) ||| 1) ||| 2) = 0x400003 := by decide
  have hor2 : (((0x401000 : Nat) ||| 1) ||| 2) = 0x401003 := by decide
  have hor3 : (((0x402000 : Nat) ||| 1) ||| 2) = 0x402003 := by decide
  have hpp1 : ¬ ((0x400003 : Nat) &&& PAGE_PRESENT = 0) := by decide
  have hpp2 : ¬ ((0x401003 : Nat) &&& PAGE_PRESENT = 0) := by decide
  have hpp3 : ¬ ((0x402003 : Nat) &&& PAGE_PRESENT = 0) := by decide
  have hga1 : pte_get_address 0x400003 = 0x400000 := by decide
  have hga2 : pte_get_address 0x401003 = 0x401000 := by decide
  have hga3 : pte_get_address 0x402003 = 0x402000 := by decide
  have hhug : ((0x402003 : Nat) &&& PAGE_HUGE = 0) := by decide
  unfold vmm_get_physical cleanMapResult
  simp only [memWriteEntry, memZeroTable, hor1, hor2, hor3]
  norm_num [hpp1, hpp2, hpp3, hga1, hga2, hga3, hhug, PAGE_PRESENT]

end Vmm

/-- C3 amended: for page-aligned `v` and `p` with `p` inside the 40-bit
frame field (`p < 2^52`), and for every flag set `F` drawn from the
architectural flag bits (none of bits 12..51 set) that CONTAINS
`PAGE_PRESENT`, mapping `v` to `p` with flags `F` on a clean page-table
state succeeds, `vmm_get_physical v` then returns `p`, and after
`vmm_unmap_page v` (which succeeds) `vmm_get_physical v` returns 0.  The
claim as frozen omitted the `PAGE_PRESENT` requirement; the code stores
`phys_addr | flags` verbatim, so a flag set without the present bit maps
a page that the walk treats as absent. -/
theorem C3_map_get_roundtrip_amended (v p F : Nat) (hv : v % 4096 = 0)
    (hp : p % 4096 = 0) (hp52 : p < 2 ^ 52) (hF1 : F % 2 = 1)
    (hF : ∀ i, 12 ≤ i → i < 52 → F.testBit i = false) :
    (Vmm.vmm_map_page Vmm.vmmDemo v p F).1 = KErr.E_OK ∧
      Vmm.vmm_get_physical (Vmm.vmm_map_page Vmm.vmmDemo v p F).2 v = p ∧
      (Vmm.vmm_unmap_page (Vmm.vmm_map_page Vmm.vmmDemo v p F).2 v).1 = KErr.E_OK ∧
      Vmm.vmm_get_physical
        (Vmm.vmm_unmap_page (Vmm.vmm_map_page Vmm.vmmDemo v p F).2 v).2 v = 0 := by
  have hkey := Vmm.pte_get_address_or p F hp hp52 hF
  have hpres : ¬ ((p ||| F) &&& Vmm.PAGE_PRESENT = 0) := Vmm.or_present p F hF1
  have hmap := Vmm.vmm_map_page_clean_eq v p F hv hp
  rw [hmap]
  dsimp only
  refine ⟨rfl, ?_, ?_, ?_⟩
  · exact Vmm.cleanMapResult_get v p F hv hkey hpres
  · rw [Vmm.cleanMapResult_unmap v p F hv hpres]
  · rw [Vmm.cleanMapResult_unmap v p F hv hpres]
    exact Vmm.cleanMapResult_unmap_get v p F

/-- Witness for the amended C3: mapping virtual page 0 to physical page
`0x5000` with flags `PAGE_PRESENT | PAGE_WRITE = 3`. -/
theorem C3_map_get_roundtrip_amended_witness :
    (Vmm.vmm_map_page Vmm.vmmDemo 0 0x5000 3).1 = KErr.E_OK ∧
      Vmm.vmm_get_physical (Vmm.vmm_map_page Vmm.vmmDemo 0 0x5000 3).2 0 = 0x5000 ∧
      (Vmm.vmm_unmap_page (Vmm.vmm_map_page Vmm.vmmDemo 0 0x5000 3).2 0).1 = KErr.E_OK ∧
      Vmm.vmm_get_physical
        (Vmm.vmm_unmap_page (Vmm.vmm_map_page Vmm.vmmDemo 0 0x5000 3).2 0).2 0 = 0 :=
  C3_map_get_roundtrip_amended 0 0x5000 3 (by decide) (by decide) (by decide) (by decide)
    (by
      intro i h1 _
      have h2 : (2 : Nat) ^ 12 ≤ 2 ^ i := Nat.pow_le_pow_right (by norm_num) h1
      exact Nat.testBit_lt_two_pow (lt_of_lt_of_le (by norm_num) h2))
